import Mathlib

/-!
# Lifecycle controller of `platform/linux-dpdk/odp_init.c`

A shallow embedding of the global and per-thread bring-up / teardown code of
`odp_init.c`, followed by theorems about it.

## Modelling conventions

* C strings are lists of characters (the bytes before the terminating NUL).
* `int` results are `Int`; a collaborator "fails" when the C condition `if (f())` is
  taken, i.e. when its result is non-zero.
* Every collaborator that lives outside `odp_init.c` (the subsystem init/term functions,
  the C library, the DPDK EAL, `odp_cpumask_to_str`) is an oracle field of `World`: one
  `World` fixes the outcome of every external call of a run, as a function of the
  arguments of the call.
* Every external call that matters to the lifecycle is appended to `State.trace`, so
  "which calls were made, in which order" is a statement about the trace.
* Logging (`ODP_ERR`, `ODP_DBG`) is not modelled.

## Assumptions on the collaborators

* The subsystems leave `odp_global_data.main_pid`, `log_fn` and `abort_fn` alone; the only
  field a subsystem writes is `hugepage_info.default_huge_page_dir` (`odp_system_info_init`).
* `rte_eal_init` returns to its caller (also for the `--help` call of
  `print_dpdk_env_help`); it may change the affinity of the calling thread.
* `calloc`/`malloc` in `odp_init_dpdk` succeed (their results are not checked by the code);
  the `malloc` of `cleanup_files`, whose result is checked, may fail.
* `sprintf` into `full_cmdline` produces the whole formatted text.
-/

namespace OdpInit

/-- A C string: the characters before the terminating NUL. -/
abbrev CString := List Char

/-- The `enum init_stage` markers used by `odp_init.c` (the enum itself is declared
in `odp_internal.h`; only the case labels are used, never the numeric values). -/
inductive init_stage where
  | NO_INIT
  | CPUMASK_INIT
  | TIME_INIT
  | SYSINFO_INIT
  | FDSERVER_INIT
  | ISHM_INIT
  | THREAD_INIT
  | POOL_INIT
  | QUEUE_INIT
  | SCHED_INIT
  | PKTIO_INIT
  | TIMER_INIT
  | CRYPTO_INIT
  | CLASSIFICATION_INIT
  | TRAFFIC_MNGR_INIT
  | NAME_TABLE_INIT
  | ALL_INIT
  deriving DecidableEq, Repr

/-- The subsystems driven by `odp_init.c`.  Global entry points:
`cpumask` = `odp_cpumask_{init,term}_global`, `time` = `odp_time_{init,term}_global`,
`system_info` = `odp_system_info_{init,term}`, `shm` = `_odp_shm_{init,term}_global`,
`thread` = `odp_thread_{init,term}_global`, `pool` = `odp_pool_{init,term}_global`,
`queue` = `odp_queue_{init,term}_global`, `sched` = `sched_fn->{init,term}_global`,
`pktio` = `odp_pktio_{init,term}_global`, `timer` = `odp_timer_{init,term}_global`,
`crypto` = `odp_crypto_{init,term}_global`,
`classification` = `odp_classification_{init,term}_global`,
`tm` = `odp_tm_{init,term}_global`, `name_tbl` = `_odp_int_name_tbl_{init,term}_global`.
The `_local` entry points of `shm`, `thread`, `pktio`, `pool`, `sched` are named alike. -/
inductive Subsys where
  | cpumask
  | time
  | system_info
  | shm
  | thread
  | pool
  | queue
  | sched
  | pktio
  | timer
  | crypto
  | classification
  | tm
  | name_tbl
  deriving DecidableEq, Repr

/-- The `odp_thread_type_t` values. -/
inductive odp_thread_type_t where
  | ODP_THREAD_WORKER
  | ODP_THREAD_CONTROL
  deriving DecidableEq, Repr

/-- A `cpu_set_t`, as the bit mask of the CPUs it holds (bit `i` = CPU `i`). -/
abbrev cpu_set_t := Nat

/-- An `odp_cpumask_t`, as the bit mask of the CPUs it holds. -/
abbrev odp_cpumask_t := Nat

/-- The handle type `odp_instance_t` (an unsigned 64-bit integer). -/
abbrev odp_instance_t := Nat

/-- A function pointer stored in the lifecycle record. -/
inductive fn_ptr where
  | NULL
  | odp_override_log
  | odp_override_abort
  | user (id : Nat)
  deriving DecidableEq, Repr

/-- The fields of `odp_init_t` read by `odp_init_global`; `none` is a NULL pointer. -/
structure odp_init_t where
  log_fn : Option Nat
  abort_fn : Option Nat
  deriving DecidableEq, Repr

/-- The fields of `odp_platform_init_t` read by `odp_init_global`. -/
structure odp_platform_init_t where
  memory : Nat
  cmdline : Option CString
  deriving DecidableEq, Repr

/-- The fields of `struct odp_global_data_s` touched by `odp_init.c`. -/
structure odp_global_data_s where
  main_pid : Int
  log_fn : fn_ptr
  abort_fn : fn_ptr
  default_huge_page_dir : Option CString
  deriving DecidableEq, Repr

/-- External calls recorded in the trace. -/
inductive Event where
  | opendir (dirpath : CString)
  | unlink (fullpath : CString) (result : Int)
  | init_global (x : Subsys)
  | term_global (x : Subsys)
  | init_local (x : Subsys) (thr_type : Option odp_thread_type_t)
  | term_local (x : Subsys)
  | getenv (name : CString)
  | pthread_getaffinity_np
  | odp_cpumask_to_str (mask : odp_cpumask_t)
  | rte_eal_init (argv : List CString)
  | pthread_setaffinity_np (cpuset : cpu_set_t)
  deriving DecidableEq, Repr

/-- The outcome of every external call of one run. -/
structure World where
  /-- The result of `getpid()`. -/
  getpid : Int
  /-- `opendir(dirpath)`: `none` when it fails, else the names `readdir` yields, in order. -/
  opendir : CString → Option (List CString)
  /-- Whether `malloc` returns NULL for the `i`-th entry read from `dirpath`. -/
  malloc_fails : CString → Nat → Bool
  /-- The result of `unlink` for the `i`-th entry read from `dirpath`. -/
  unlink : CString → Nat → Int
  /-- The result of each subsystem's global init. -/
  init_global : Subsys → Int
  /-- The result of each subsystem's global term. -/
  term_global : Subsys → Int
  /-- The value `odp_system_info_init` leaves in
  `odp_global_data.hugepage_info.default_huge_page_dir`. -/
  default_huge_page_dir : Option CString
  /-- The result of `getenv(name)`. -/
  getenv : CString → Option CString
  /-- The result of `pthread_getaffinity_np` (0 on success). -/
  pthread_getaffinity_np : Int
  /-- The result of `odp_cpumask_to_str`: the returned length and the rendered string. -/
  odp_cpumask_to_str : odp_cpumask_t → Int × CString
  /-- The result of `rte_eal_init(argc, argv)` and the affinity it leaves the calling
  thread with, given the affinity it was called with. -/
  rte_eal_init : List CString → cpu_set_t → Int × cpu_set_t
  /-- The result of `pthread_setaffinity_np` (0 on success). -/
  pthread_setaffinity_np : cpu_set_t → Int
  /-- The result of each subsystem's local init (`thread` apart). -/
  init_local : Subsys → Int
  /-- The result of `odp_thread_init_local(thr_type)`. -/
  odp_thread_init_local : odp_thread_type_t → Int
  /-- The result of each subsystem's local term. -/
  term_local : Subsys → Int

/-- The mutable state the code runs in: the process-wide record `odp_global_data`, the
calling thread's CPU affinity, and the trace of external calls made so far. -/
structure State where
  odp_global_data : odp_global_data_s
  affinity : cpu_set_t
  trace : List Event
  deriving DecidableEq, Repr

/-- Record one external call. -/
def State.emit (s : State) (e : Event) : State :=
  { s with trace := s.trace ++ [e] }

/-- A C `switch (stage)` whose cases fall through: `cases` lists, in source order, the
labels of each case and its block.  Control enters at the first case carrying the label
`stage` and runs every block from there on; when no label matches nothing runs. -/
def switch_fallthrough {α : Type} (stage : init_stage) :
    List (List init_stage × (α → α)) → Bool → α → α
  | [], _, a => a
  | (labels, block) :: rest, entered, a =>
    if entered || labels.contains stage then switch_fallthrough stage rest true (block a)
    else switch_fallthrough stage rest false a

/-! ## Constants and C library helpers -/

/-- `PATH_MAX` of `linux/limits.h`. -/
def PATH_MAX : Nat := 4096

/-- `CPU_SETSIZE` of glibc. -/
def CPU_SETSIZE : Nat := 1024

/-- `#define _ODP_TMPDIR "/tmp"`. -/
def _ODP_TMPDIR : CString := "/tmp".toList

/-- The name of the environment variable read by `odp_init_dpdk`. -/
def ODP_PLATFORM_PARAMS : CString := "ODP_PLATFORM_PARAMS".toList

/-- The `%u` conversion: unsigned decimal. -/
def fmt_u (n : Nat) : CString := Nat.toDigits 10 n

/-- The `%d` conversion: signed decimal. -/
def fmt_d (i : Int) : CString :=
  if i < 0 then '-' :: Nat.toDigits 10 (-i).toNat else Nat.toDigits 10 i.toNat

/-- What `snprintf(buf, size, ...)` leaves in `buf`: the formatted text cut to
`size - 1` characters. -/
def snprintf (size : Nat) (formatted : CString) : CString := formatted.take (size - 1)

/-- `#define _ODP_FILES_FMT "odp-%d-"`, formatted with `odp_pid`. -/
def _ODP_FILES_FMT (odp_pid : Int) : CString := "odp-".toList ++ fmt_d odp_pid ++ "-".toList

/-- `strncmp(a, b, n)`: zero exactly when the first `n` characters of the two strings
agree (a string that ends earlier agrees only with one that ends at the same place). -/
def strncmp : CString → CString → Nat → Int
  | _, _, 0 => 0
  | [], [], _ + 1 => 0
  | [], b :: _, _ + 1 => - (b.toNat : Int)
  | a :: _, [], _ + 1 => (a.toNat : Int)
  | a :: as, b :: bs, n + 1 => if a = b then strncmp as bs n else (a.toNat : Int) - (b.toNat : Int)

/-- `isspace` in the C locale: space, `\t`, `\n`, `\v`, `\f`, `\r`. -/
def isspace (c : Char) : Bool :=
  c == ' ' || c == '\t' || c == '\n' || c == Char.ofNat 11 || c == Char.ofNat 12 || c == '\r'

/-- `CPU_ISSET(cpu, &set)`. -/
def CPU_ISSET (cpu : Nat) (set : cpu_set_t) : Bool := set.testBit cpu

/-- Modelled from the spec: `odp_cpumask_zero` (defined in the cpumask module, outside
`odp_init.c`) empties the mask. -/
def odp_cpumask_zero : odp_cpumask_t := 0

/-- Modelled from the spec: `odp_cpumask_set(&mask, cpu)` (defined in the cpumask module,
outside `odp_init.c`) adds `cpu` to the mask. -/
def odp_cpumask_set (mask : odp_cpumask_t) (cpu : Nat) : odp_cpumask_t := mask ||| (1 <<< cpu)

/-- The scan loop of DPDK's `rte_strsplit` (a library function outside this repository,
modelled from its definition in `eal_common_string_fns.c`).  `n` is what remains of
`stringlen`, `tok` the number of tokens started, `tokstart` whether the next character
starts a token, `closed` the tokens already terminated by a delimiter and `cur` the
characters of the token being read.  A delimiter is overwritten by NUL and ends the
token; when `maxtokens` tokens have been started the scan stops and the last token keeps
the rest of the string. -/
def rte_strsplit_loop (maxtokens : Nat) (delim : Char) :
    CString → Nat → Nat → Bool → List CString → CString → List CString
  | [], _, _, tokstart, closed, cur => if tokstart then closed else closed ++ [cur]
  | c :: rest, 0, _, tokstart, closed, cur =>
    if tokstart then closed else closed ++ [cur ++ c :: rest]
  | c :: rest, n + 1, tok, tokstart, closed, cur =>
    if tok ≥ maxtokens then
      if tokstart then closed else closed ++ [cur ++ c :: rest]
    else
      let tok1 := if tokstart then tok + 1 else tok
      let cur1 := if tokstart then [] else cur
      if c = delim then rte_strsplit_loop maxtokens delim rest n tok1 true (closed ++ [cur1]) []
      else rte_strsplit_loop maxtokens delim rest n tok1 false closed (cur1 ++ [c])

/-- `rte_strsplit(string, stringlen, tokens, maxtokens, delim)`: the tokens written to
`tokens`; the C function returns their number. -/
def rte_strsplit (string : CString) (stringlen maxtokens : Nat) (delim : Char) : List CString :=
  rte_strsplit_loop maxtokens delim string stringlen 0 true [] []

/-! ## Stale file cleanup -/

/-- The `while ((e = readdir(dir)) != NULL)` loop of `cleanup_files`, over the entries
still to be read; `i` counts the entries read so far. -/
def cleanup_files_loop (W : World) (dirpath pfx : CString) :
    List CString → Nat → State → Int × State
  | [], _, s => (0, s)
  | d_name :: rest, i, s =>
    if strncmp d_name pfx pfx.length = 0 then
      if W.malloc_fails dirpath i then (-1, s)
      else
        let fullpath := snprintf PATH_MAX (dirpath ++ '/' :: d_name)
        cleanup_files_loop W dirpath pfx rest (i + 1)
          (s.emit (.unlink fullpath (W.unlink dirpath i)))
    else cleanup_files_loop W dirpath pfx rest (i + 1) s

/-- `static int cleanup_files(const char *dirpath, int odp_pid)`. -/
def cleanup_files (W : World) (dirpath : CString) (odp_pid : Int) (s : State) : Int × State :=
  match W.opendir dirpath with
  | none => (0, s.emit (.opendir dirpath))
  | some entries =>
    let pfx := snprintf PATH_MAX (_ODP_FILES_FMT odp_pid)
    cleanup_files_loop W dirpath pfx entries 0 (s.emit (.opendir dirpath))

/-! ## Native runtime bootstrap -/

/-- The `for (i = 0; i < CPU_SETSIZE; i++)` loop of `odp_init_dpdk`: `n` iterations remain,
`i` is the CPU examined next; the first CPU found in `original_cpuset` is put in `mask`
and the loop is left. -/
def first_cpu_loop (original_cpuset : cpu_set_t) : Nat → Nat → odp_cpumask_t → odp_cpumask_t
  | 0, _, mask => mask
  | n + 1, i, mask =>
    if CPU_ISSET i original_cpuset then odp_cpumask_set mask i
    else first_cpu_loop original_cpuset n (i + 1) mask

/-- The `for (i = 0, dpdk_argc = 1; i < cmdlen; ++i)` loop of `odp_init_dpdk` over the
characters still to be examined. -/
def dpdk_argc_loop : CString → Nat → Nat
  | [], dpdk_argc => dpdk_argc
  | c :: rest, dpdk_argc =>
    if isspace c then dpdk_argc_loop rest (dpdk_argc + 1) else dpdk_argc_loop rest dpdk_argc

/-- `static void print_dpdk_env_help(void)`: calls `rte_eal_init` with
`{"odpdpdk", "--help"}` and drops its result. -/
def print_dpdk_env_help (W : World) (s : State) : State :=
  let dpdk_argv : List CString := ["odpdpdk".toList, "--help".toList]
  { s with
    affinity := (W.rte_eal_init dpdk_argv s.affinity).2
    trace := s.trace ++ [.rte_eal_init dpdk_argv] }

/-- The body of `odp_init_dpdk` once `cmdline` is known to be non-NULL (from
`CPU_ZERO(&original_cpuset)` to the end of the function). -/
def odp_init_dpdk_resolved (W : World) (cmdline : CString) (s : State) : Int × State :=
  let s := s.emit .pthread_getaffinity_np
  if W.pthread_getaffinity_np ≠ 0 then (-1, s) else
  let original_cpuset : cpu_set_t := s.affinity
  let mask := first_cpu_loop original_cpuset CPU_SETSIZE 0 odp_cpumask_zero
  let s := s.emit (.odp_cpumask_to_str mask)
  let masklen := (W.odp_cpumask_to_str mask).1
  let mask_str := (W.odp_cpumask_to_str mask).2
  if masklen < 0 then (-1, s) else
  let full_cmdline := "odpdpdk -c ".toList ++ mask_str ++ " ".toList ++ cmdline
  let dpdk_argc := dpdk_argc_loop full_cmdline 1
  let dpdk_argv := rte_strsplit full_cmdline full_cmdline.length dpdk_argc ' '
  let i := (W.rte_eal_init dpdk_argv s.affinity).1
  let s := { s with
    affinity := (W.rte_eal_init dpdk_argv s.affinity).2
    trace := s.trace ++ [.rte_eal_init dpdk_argv] }
  if i < 0 then (-1, s) else
  let s := { s with
    affinity := if W.pthread_setaffinity_np original_cpuset = 0 then original_cpuset
                else s.affinity
    trace := s.trace ++ [.pthread_setaffinity_np original_cpuset] }
  (0, s)

/-- `static int odp_init_dpdk(const char *cmdline)`; `none` is a NULL `cmdline`. -/
def odp_init_dpdk (W : World) (cmdline : Option CString) (s : State) : Int × State :=
  match cmdline with
  | some cmdline => odp_init_dpdk_resolved W cmdline s
  | none =>
    let s := s.emit (.getenv ODP_PLATFORM_PARAMS)
    match W.getenv ODP_PLATFORM_PARAMS with
    | none => (-1, print_dpdk_env_help W s)
    | some cmdline => odp_init_dpdk_resolved W cmdline s

/-! ## Global lifecycle -/

/-- The cast `(odp_instance_t)pid` of a `pid_t` to the unsigned 64-bit handle type. -/
def to_instance (pid : Int) : odp_instance_t := (pid % 2 ^ 64).toNat

/-- The argument `platform_params ? cmdline : NULL` that `odp_init_global` hands to
`odp_init_dpdk`, where `cmdline` is the 256-byte buffer filled by
`snprintf(cmdline, 256, "-m %u %s", platform_params->memory, ...)`; `%u` prints the
`memory` field as an unsigned 32-bit integer. -/
def dpdk_cmdline_arg (platform_params : Option odp_platform_init_t) : Option CString :=
  match platform_params with
  | none => none
  | some pp =>
    some (snprintf 256 ("-m ".toList ++ fmt_u (pp.memory % 2 ^ 32) ++ " ".toList ++
      (match pp.cmdline with
       | some c => c
       | none => [])))

/-- One case block of `_odp_term_global`:
`if (x_term_global()) { ODP_ERR(...); rc = -1; }` on the pair `(rc, state)`. -/
def term_global_block (W : World) (x : Subsys) (p : Int × State) : Int × State :=
  (if W.term_global x ≠ 0 then -1 else p.1, p.2.emit (.term_global x))

/-- `int _odp_term_global(enum init_stage stage)`. -/
def _odp_term_global (W : World) (stage : init_stage) (s : State) : Int × State :=
  switch_fallthrough stage
    [ ([.ALL_INIT, .NAME_TABLE_INIT], term_global_block W .name_tbl),
      ([.TRAFFIC_MNGR_INIT], term_global_block W .tm),
      ([.CLASSIFICATION_INIT], term_global_block W .classification),
      ([.CRYPTO_INIT], term_global_block W .crypto),
      ([.TIMER_INIT], term_global_block W .timer),
      ([.PKTIO_INIT], term_global_block W .pktio),
      ([.SCHED_INIT], term_global_block W .sched),
      ([.QUEUE_INIT], term_global_block W .queue),
      ([.POOL_INIT], term_global_block W .pool),
      ([.THREAD_INIT], term_global_block W .thread),
      ([.ISHM_INIT], term_global_block W .shm),
      ([.FDSERVER_INIT, .SYSINFO_INIT], term_global_block W .system_info),
      ([.TIME_INIT], term_global_block W .time),
      ([.CPUMASK_INIT], term_global_block W .cpumask),
      ([.NO_INIT], id) ]
    false (0, s)

/-- One forward step `x_init_global()` of `odp_init_global`: the result of the call and
the state after it. -/
def call_init_global (W : World) (x : Subsys) (s : State) : Int × State :=
  (W.init_global x, s.emit (.init_global x))

/-- The `init_failed:` label of `odp_init_global`: `_odp_term_global(stage); return -1;`
(`inst` is the caller's instance variable, left as it was). -/
def init_failed (W : World) (inst : odp_instance_t) (stage : init_stage) (s : State) :
    Int × odp_instance_t × State :=
  (-1, inst, (_odp_term_global W stage s).2)

/-- `int odp_init_global(odp_instance_t *instance, const odp_init_t *params,
const odp_platform_init_t *platform_params)`.  `inst` is the value of `*instance` at entry;
the result is the return code, the value of `*instance` at exit and the state at exit. -/
def odp_init_global (W : World) (inst : odp_instance_t) (params : Option odp_init_t)
    (platform_params : Option odp_platform_init_t) (s : State) :
    Int × odp_instance_t × State :=
  let log_fn : fn_ptr :=
    match params with
    | some p => (match p.log_fn with
                 | some f => .user f
                 | none => .odp_override_log)
    | none => .odp_override_log
  let abort_fn : fn_ptr :=
    match params with
    | some p => (match p.abort_fn with
                 | some f => .user f
                 | none => .odp_override_abort)
    | none => .odp_override_abort
  let s : State := { s with odp_global_data :=
    { main_pid := W.getpid, log_fn := log_fn, abort_fn := abort_fn,
      default_huge_page_dir := none } }
  let s := (cleanup_files W _ODP_TMPDIR s.odp_global_data.main_pid s).2
  let r := call_init_global W .cpumask s
  if r.1 ≠ 0 then init_failed W inst .NO_INIT r.2 else
  let r := odp_init_dpdk W (dpdk_cmdline_arg platform_params) r.2
  if r.1 ≠ 0 then (-1, inst, r.2) else
  let r := call_init_global W .time r.2
  if r.1 ≠ 0 then init_failed W inst .CPUMASK_INIT r.2 else
  let r := call_init_global W .system_info r.2
  let s : State := { r.2 with odp_global_data :=
    { r.2.odp_global_data with default_huge_page_dir := W.default_huge_page_dir } }
  if r.1 ≠ 0 then init_failed W inst .TIME_INIT s else
  let s := match s.odp_global_data.default_huge_page_dir with
    | some hpdir => (cleanup_files W hpdir s.odp_global_data.main_pid s).2
    | none => s
  let r := call_init_global W .shm s
  if r.1 ≠ 0 then init_failed W inst .SYSINFO_INIT r.2 else
  let r := call_init_global W .thread r.2
  if r.1 ≠ 0 then init_failed W inst .ISHM_INIT r.2 else
  let r := call_init_global W .pool r.2
  if r.1 ≠ 0 then init_failed W inst .THREAD_INIT r.2 else
  let r := call_init_global W .queue r.2
  if r.1 ≠ 0 then init_failed W inst .POOL_INIT r.2 else
  let r := call_init_global W .sched r.2
  if r.1 ≠ 0 then init_failed W inst .QUEUE_INIT r.2 else
  let r := call_init_global W .pktio r.2
  if r.1 ≠ 0 then init_failed W inst .SCHED_INIT r.2 else
  let r := call_init_global W .timer r.2
  if r.1 ≠ 0 then init_failed W inst .PKTIO_INIT r.2 else
  let r := call_init_global W .crypto r.2
  if r.1 ≠ 0 then init_failed W inst .TIMER_INIT r.2 else
  let r := call_init_global W .classification r.2
  if r.1 ≠ 0 then init_failed W inst .CRYPTO_INIT r.2 else
  let r := call_init_global W .tm r.2
  if r.1 ≠ 0 then init_failed W inst .CLASSIFICATION_INIT r.2 else
  let r := call_init_global W .name_tbl r.2
  if r.1 ≠ 0 then init_failed W inst .TRAFFIC_MNGR_INIT r.2 else
  (0, to_instance r.2.odp_global_data.main_pid, r.2)

/-- `int odp_term_global(odp_instance_t instance)`. -/
def odp_term_global (W : World) (inst : odp_instance_t) (s : State) : Int × State :=
  if inst ≠ to_instance s.odp_global_data.main_pid then (-1, s)
  else _odp_term_global W .ALL_INIT s

/-! ## Local lifecycle -/

/-- A case block of `_odp_term_local` of the form
`if (x_term_local()) { ODP_ERR(...); rc = -1; }` on the pair `(rc, state)`. -/
def term_local_block (W : World) (x : Subsys) (p : Int × State) : Int × State :=
  (if W.term_local x ≠ 0 then -1 else p.1, p.2.emit (.term_local x))

/-- The `case THREAD_INIT:` block of `_odp_term_local`:
`rc_thd = odp_thread_term_local(); if (rc_thd < 0) rc = -1; else if (!rc) rc = rc_thd;`. -/
def term_local_thread_block (W : World) (p : Int × State) : Int × State :=
  let rc_thd := W.term_local .thread
  (if rc_thd < 0 then -1 else if p.1 = 0 then rc_thd else p.1, p.2.emit (.term_local .thread))

/-- `int _odp_term_local(enum init_stage stage)`; the closing `default: break;` runs
nothing, like a `switch` without a matching label. -/
def _odp_term_local (W : World) (stage : init_stage) (s : State) : Int × State :=
  switch_fallthrough stage
    [ ([.ALL_INIT, .SCHED_INIT], term_local_block W .sched),
      ([.POOL_INIT], term_local_block W .pool),
      ([.THREAD_INIT], term_local_thread_block W),
      ([.ISHM_INIT], term_local_block W .shm) ]
    false (0, s)

/-- The `init_fail:` label of `odp_init_local`: `_odp_term_local(stage); return -1;`. -/
def init_fail (W : World) (stage : init_stage) (s : State) : Int × State :=
  (-1, (_odp_term_local W stage s).2)

/-- `int odp_init_local(odp_instance_t instance, odp_thread_type_t thr_type)`. -/
def odp_init_local (W : World) (inst : odp_instance_t) (thr_type : odp_thread_type_t)
    (s : State) : Int × State :=
  if inst ≠ to_instance s.odp_global_data.main_pid then init_fail W .NO_INIT s else
  let s := s.emit (.init_local .shm none)
  if W.init_local .shm ≠ 0 then init_fail W .NO_INIT s else
  let s := s.emit (.init_local .thread (some thr_type))
  if W.odp_thread_init_local thr_type ≠ 0 then init_fail W .ISHM_INIT s else
  let s := s.emit (.init_local .pktio none)
  if W.init_local .pktio ≠ 0 then init_fail W .THREAD_INIT s else
  let s := s.emit (.init_local .pool none)
  if W.init_local .pool ≠ 0 then init_fail W .PKTIO_INIT s else
  let s := s.emit (.init_local .sched none)
  if W.init_local .sched ≠ 0 then init_fail W .POOL_INIT s else
  (0, s)

/-- `int odp_term_local(void)`. -/
def odp_term_local (W : World) (s : State) : Int × State :=
  _odp_term_local W .ALL_INIT s

/-! ## Vocabulary of the statements

The orders and projections below are not part of `odp_init.c`: they are the terms in which
the properties of the code are stated. -/

/-- The fixed global order in which the fourteen subsystems are to be brought up. -/
def global_order : List Subsys :=
  [.cpumask, .time, .system_info, .shm, .thread, .pool, .queue, .sched, .pktio, .timer,
   .crypto, .classification, .tm, .name_tbl]

/-- The fixed local order of `odp_init_local`. -/
def local_order : List Subsys := [.shm, .thread, .pktio, .pool, .sched]

/-- The stages of `order` that come before stage `k`. -/
def stages_before (order : List Subsys) (k : Subsys) : List Subsys :=
  order.takeWhile (fun x => x != k)

/-- The stage a marker stands for: `NO_INIT` stands for none, `ALL_INIT` for the highest
stage, and `FDSERVER_INIT` (a marker `odp_init_global` never assigns) shares the case of
`SYSINFO_INIT`. -/
def marker_stage : init_stage → Option Subsys
  | .NO_INIT => none
  | .CPUMASK_INIT => some .cpumask
  | .TIME_INIT => some .time
  | .SYSINFO_INIT => some .system_info
  | .FDSERVER_INIT => some .system_info
  | .ISHM_INIT => some .shm
  | .THREAD_INIT => some .thread
  | .POOL_INIT => some .pool
  | .QUEUE_INIT => some .queue
  | .SCHED_INIT => some .sched
  | .PKTIO_INIT => some .pktio
  | .TIMER_INIT => some .timer
  | .CRYPTO_INIT => some .crypto
  | .CLASSIFICATION_INIT => some .classification
  | .TRAFFIC_MNGR_INIT => some .tm
  | .NAME_TABLE_INIT => some .name_tbl
  | .ALL_INIT => some .name_tbl

/-- The teardown sequence expected for a marker: from the marker's stage down to cpu-mask,
the reverse of the global order. -/
def teardown_order (stage : init_stage) : List Subsys :=
  match marker_stage stage with
  | none => []
  | some k => (stages_before global_order k ++ [k]).reverse

/-- The local term calls that `_odp_term_local` is shown to make for each marker, in call
order (`term_local_state`). -/
def local_teardown_order : init_stage → List Subsys
  | .ALL_INIT => [.sched, .pool, .thread, .shm]
  | .SCHED_INIT => [.sched, .pool, .thread, .shm]
  | .POOL_INIT => [.pool, .thread, .shm]
  | .THREAD_INIT => [.thread, .shm]
  | .ISHM_INIT => [.shm]
  | _ => []

/-- The result of the local init of `x` (`thread` takes the thread type). -/
def local_init_result (W : World) (thr_type : odp_thread_type_t) (x : Subsys) : Int :=
  if x = .thread then W.odp_thread_init_local thr_type else W.init_local x

/-- The trace event of the local init of `x`. -/
def local_init_event (thr_type : odp_thread_type_t) (x : Subsys) : Event :=
  .init_local x (if x = .thread then some thr_type else none)

/-- Whether a trace event is a subsystem init or term call (global or local). -/
def Event.is_subsys_call : Event → Bool
  | .init_global _ => true
  | .term_global _ => true
  | .init_local _ _ => true
  | .term_local _ => true
  | _ => false

/-- The subsystem init and term calls of a trace, in order. -/
def subsys_calls (tr : List Event) : List Event := tr.filter Event.is_subsys_call

/-- The `unlink` calls for the entries of a listing whose name begins with `pfx`, in listing
order; `i0` is the number of entries read before the listing. -/
def matching_unlinks (W : World) (dirpath pfx : CString) (entries : List CString) (i0 : Nat) :
    List Event :=
  ((entries.enumFrom i0).filter (fun p => pfx.isPrefixOf p.2)).map
    (fun p => Event.unlink (snprintf PATH_MAX (dirpath ++ '/' :: p.2)) (W.unlink dirpath p.1))

/-! ## Proof devices -/

/-- The return code of `odp_init_dpdk` as a function of the world, the command string and the
calling thread's affinity (it depends on nothing else in the state). -/
def bootstrap_ret (W : World) (cmdline : Option CString) (affinity : cpu_set_t) : Int :=
  (odp_init_dpdk W cmdline ⟨⟨0, .NULL, .NULL, none⟩, affinity, []⟩).1

/-- The forward steps of `odp_init_global` after the system-information stage: each
subsystem with the marker handed to `_odp_term_global` when its init fails. -/
def init_steps_tail : List (Subsys × init_stage) :=
  [(.shm, .SYSINFO_INIT), (.thread, .ISHM_INIT), (.pool, .THREAD_INIT), (.queue, .POOL_INIT),
   (.sched, .QUEUE_INIT), (.pktio, .SCHED_INIT), (.timer, .PKTIO_INIT), (.crypto, .TIMER_INIT),
   (.classification, .CRYPTO_INIT), (.tm, .CLASSIFICATION_INIT),
   (.name_tbl, .TRAFFIC_MNGR_INIT)]

/-- A table-driven run of forward steps: call each init in turn, unwind from the step's
marker at the first failure, write the handle when all succeed.  The tail of
`odp_init_global` is shown equal to `forward` on `init_steps_tail`. -/
def forward (W : World) (inst : odp_instance_t) :
    List (Subsys × init_stage) → State → Int × odp_instance_t × State
  | [], s => (0, to_instance s.odp_global_data.main_pid, s)
  | (x, stage) :: rest, s =>
    if (call_init_global W x s).1 ≠ 0 then init_failed W inst stage (call_init_global W x s).2
    else forward W inst rest (call_init_global W x s).2

/-! ## Concrete worlds and states

Inputs on which the theorems are instantiated. -/

/-- A world in which every external call succeeds; no directory can be opened and the
environment variable is unset. -/
def W_ok : World where
  getpid := 4242
  opendir := fun _ => none
  malloc_fails := fun _ _ => false
  unlink := fun _ _ => 0
  init_global := fun _ => 0
  term_global := fun _ => 0
  default_huge_page_dir := none
  getenv := fun _ => none
  pthread_getaffinity_np := 0
  odp_cpumask_to_str := fun _ => (4, "0x1".toList)
  rte_eal_init := fun _ a => (0, a)
  pthread_setaffinity_np := fun _ => 0
  init_local := fun _ => 0
  odp_thread_init_local := fun _ => 0
  term_local := fun _ => 0

/-- The world `W_ok` with the global init of `k` failing. -/
def W_init_fails (k : Subsys) : World :=
  { W_ok with init_global := fun x => if x = k then -1 else 0 }

/-- The world `W_ok` with the local init of `k` failing. -/
def W_local_init_fails (k : Subsys) : World :=
  { W_ok with
    init_local := fun x => if x = k then -1 else 0
    odp_thread_init_local := fun _ => if k = .thread then -1 else 0 }

/-- The world `W_ok` in which `/tmp` lists `odp-7-a`, `odp-7-b`, `odp-8-c`, the second
deletion fails, and `malloc` fails for the entries whose index satisfies `alloc_fails`. -/
def W_tmp_listing (alloc_fails : Nat → Bool) : World :=
  { W_ok with
    getpid := 7
    opendir := fun d =>
      if d = _ODP_TMPDIR then some ["odp-7-a".toList, "odp-7-b".toList, "odp-8-c".toList]
      else none
    malloc_fails := fun _ i => alloc_fails i
    unlink := fun _ i => if i = 1 then -1 else 0 }

/-- The world `W_ok` in which `rte_eal_init` returns `ret` and leaves the calling thread
bound to CPU 1 (mask 2). -/
def W_eal (ret : Int) : World :=
  { W_ok with rte_eal_init := fun _ _ => (ret, 2) }

/-- A state before any lifecycle call: zeroed record, thread bound to CPU 0, empty trace. -/
def s_fresh : State :=
  { odp_global_data := { main_pid := 0, log_fn := .NULL, abort_fn := .NULL,
                         default_huge_page_dir := none },
    affinity := 1, trace := [] }

/-- A state after a successful global init by process 4242. -/
def s_live : State :=
  { odp_global_data := { main_pid := 4242, log_fn := .odp_override_log,
                         abort_fn := .odp_override_abort, default_huge_page_dir := none },
    affinity := 1, trace := [] }

/-- Platform parameters `{ memory = 512, cmdline = "-n 4" }`. -/
def pp_sample : odp_platform_init_t := { memory := 512, cmdline := some "-n 4".toList }

/-! ## Vocabulary for the bootstrap and teardown statements -/

/-- The mask `odp_init_dpdk` hands to `odp_cpumask_to_str` for an affinity snapshot: the
result of its `for` loop over `CPU_SETSIZE` CPUs started on the empty mask. -/
def rendered_mask (original_cpuset : cpu_set_t) : odp_cpumask_t :=
  first_cpu_loop original_cpuset CPU_SETSIZE 0 odp_cpumask_zero

/-- The text `sprintf(full_cmdline, "odpdpdk -c %s %s", mask_str, cmdline)` produces. -/
def full_cmdline_text (mask_str cmdline : CString) : CString :=
  "odpdpdk -c ".toList ++ mask_str ++ " ".toList ++ cmdline

/-- The argument vector `odp_init_dpdk` passes to `rte_eal_init`: the split of the full
command text at `' '` into the `dpdk_argc` slots counted by the `isspace` loop. -/
def dpdk_argv (mask_str cmdline : CString) : List CString :=
  rte_strsplit (full_cmdline_text mask_str cmdline) (full_cmdline_text mask_str cmdline).length
    (dpdk_argc_loop (full_cmdline_text mask_str cmdline) 1) ' '

/-- The argument vector of the `--help` call of `print_dpdk_env_help`. -/
def help_argv : List CString := ["odpdpdk".toList, "--help".toList]

/-- The byte count `odp_init_dpdk` passes to `calloc` for `full_cmdline`:
`strlen("odpdpdk -c ") + masklen + strlen(" ") + strlen(cmdline)`. -/
def full_cmdline_alloc (masklen : Int) (cmdline : CString) : Int :=
  ("odpdpdk -c ".toList.length : Int) + masklen + (" ".toList.length : Int) + cmdline.length

/-- The text `-m <memory> <cmdline>` for a platform-parameters record: `memory` in unsigned
decimal, `cmdline` taken as empty when it is NULL. -/
def platform_cmdline_text (pp : odp_platform_init_t) : CString :=
  "-m ".toList ++ fmt_u pp.memory ++ " ".toList ++ pp.cmdline.getD []

/-- The subsystems whose global init is called in a trace, in call order. -/
def init_calls (tr : List Event) : List Subsys :=
  tr.filterMap (fun e => match e with
    | .init_global x => some x
    | _ => none)

/-- Whether a trace event is a `getenv` call. -/
def Event.is_getenv : Event → Bool
  | .getenv _ => true
  | _ => false

/-- The `getenv` calls of a trace. -/
def env_reads (tr : List Event) : List Event := tr.filter Event.is_getenv

/-- Whether the local term of `x` failed, by the test `_odp_term_local` applies to its result:
negative for the thread registry (`rc_thd < 0`), non-zero for the others. -/
def local_term_failed (W : World) (x : Subsys) : Prop :=
  if x = .thread then W.term_local x < 0 else W.term_local x ≠ 0

instance (W : World) (x : Subsys) : Decidable (local_term_failed W x) := by
  unfold local_term_failed; infer_instance

/-- The pieces of a string cut at every `delim`: `cur` holds the characters of the piece
being read; a piece ends at each `delim` (it is empty when two of them are adjacent or the
string begins with one) and the characters after the last `delim` form a final piece unless
there are none. -/
def split_pieces (delim : Char) (cur : CString) : CString → List CString
  | [] => if cur = [] then [] else [cur]
  | c :: rest =>
    if c = delim then cur :: split_pieces delim [] rest
    else split_pieces delim (cur ++ [c]) rest

/-- The pieces of a string cut at every space character. -/
def split_at_spaces (s : CString) : List CString := split_pieces ' ' [] s

/-- Whether the characters after the last `delim` form a piece: `b` tells whether the piece
being read is non-empty so far. -/
def ends_open (delim : Char) : Bool → CString → Bool
  | b, [] => b
  | _, c :: rest => ends_open delim (c != delim) rest

/-- The tokens of a string delimited by runs of whitespace (`isspace`), none of them empty:
`cur` holds the characters of the token being read. -/
def whitespace_pieces (cur : CString) : CString → List CString
  | [] => if cur = [] then [] else [cur]
  | c :: rest =>
    if isspace c then
      if cur = [] then whitespace_pieces [] rest else cur :: whitespace_pieces [] rest
    else whitespace_pieces (cur ++ [c]) rest

/-- The whitespace tokenization of a string. -/
def whitespace_tokens (s : CString) : List CString := whitespace_pieces [] s

/-! ## Further proof devices and concrete inputs -/

/-- The block `_odp_term_local` runs for subsystem `x`. -/
def local_term_block (W : World) (x : Subsys) : Int × State → Int × State :=
  if x = .thread then term_local_thread_block W else term_local_block W x

/-- A world in which `odp_cpumask_to_str` fails (returns -1) and every other call succeeds. -/
def W_mask_fails : World :=
  { W_ok with odp_cpumask_to_str := fun _ => (-1, []) }

/-- The world `W_ok` in which `odp_thread_term_local` returns `r`. -/
def W_thread_term (r : Int) : World :=
  { W_ok with term_local := fun x => if x = .thread then r else 0 }

/-- The world `W` with other outcomes for the file-system calls of `cleanup_files`. -/
def with_fs (W : World) (od : CString → Option (List CString)) (mf : CString → Nat → Bool)
    (ul : CString → Nat → Int) : World :=
  { W with opendir := od, malloc_fails := mf, unlink := ul }

/-- A state whose thread is bound to CPUs 2 and 3 (mask 12). -/
def s_cpus_2_3 : State := { s_fresh with affinity := 12 }

/-- Platform parameters with memory 512 and a command string of 300 characters. -/
def pp_long : odp_platform_init_t :=
  { memory := 512, cmdline := some (List.replicate 300 'x') }

/-! ## Supporting lemmas -/

theorem term_global_blocks_fold (W : World) (xs : List Subsys) (rc : Int) (s : State) :
    (xs.map (term_global_block W)).foldl (fun a b => b a) (rc, s) =
      (if ∃ x ∈ xs, W.term_global x ≠ 0 then -1 else rc,
       { s with trace := s.trace ++ xs.map Event.term_global }) := by
  induction xs generalizing rc s with
  | nil => simp
  | cons x xs ih =>
    simp only [List.map_cons, List.foldl_cons, term_global_block, State.emit, ih]
    by_cases hx : W.term_global x = 0
    · simp [hx]
    · simp [hx]

/-- The fall-through `switch` of `_odp_term_global` runs the blocks of `teardown_order stage`. -/
theorem term_global_unfold (W : World) (stage : init_stage) (s : State) :
    _odp_term_global W stage s =
      ((teardown_order stage).map (term_global_block W)).foldl (fun a b => b a) (0, s) := by
  cases stage <;> rfl

/-- The result of `_odp_term_global` in closed form. -/
theorem term_global_eq (W : World) (stage : init_stage) (s : State) :
    _odp_term_global W stage s =
      (if ∃ x ∈ teardown_order stage, W.term_global x ≠ 0 then -1 else 0,
       { s with trace := s.trace ++ (teardown_order stage).map Event.term_global }) := by
  rw [term_global_unfold, term_global_blocks_fold]

@[simp]
theorem subsys_calls_nil : subsys_calls [] = [] := rfl

@[simp]
theorem subsys_calls_append (a b : List Event) :
    subsys_calls (a ++ b) = subsys_calls a ++ subsys_calls b := by
  simp [subsys_calls]

/-- The subsystem calls of a trace with one more event in front. -/
theorem subsys_calls_cons (e : Event) (a : List Event) :
    subsys_calls (e :: a) = if e.is_subsys_call then e :: subsys_calls a else subsys_calls a := by
  simp only [subsys_calls, List.filter_cons]

/-- A list of global init events consists of subsystem calls only. -/
theorem subsys_calls_map_init_global (xs : List Subsys) :
    subsys_calls (xs.map Event.init_global) = xs.map Event.init_global := by
  induction xs with
  | nil => rfl
  | cons x xs ih => simp [subsys_calls_cons, Event.is_subsys_call, ih]

/-- A list of global term events consists of subsystem calls only. -/
theorem subsys_calls_map_term_global (xs : List Subsys) :
    subsys_calls (xs.map Event.term_global) = xs.map Event.term_global := by
  induction xs with
  | nil => rfl
  | cons x xs ih => simp [subsys_calls_cons, Event.is_subsys_call, ih]

/-- The scan loop of `cleanup_files` touches neither the lifecycle record nor the affinity and
makes no subsystem call. -/
theorem cleanup_files_loop_frame (W : World) (dirpath pfx : CString) (entries : List CString)
    (i : Nat) (s : State) :
    (cleanup_files_loop W dirpath pfx entries i s).2.odp_global_data = s.odp_global_data ∧
    (cleanup_files_loop W dirpath pfx entries i s).2.affinity = s.affinity ∧
    subsys_calls (cleanup_files_loop W dirpath pfx entries i s).2.trace = subsys_calls s.trace := by
  induction entries generalizing i s with
  | nil => simp [cleanup_files_loop]
  | cons e es ih =>
    simp only [cleanup_files_loop]
    split_ifs
    · simp
    · simp [ih, State.emit, subsys_calls_cons, Event.is_subsys_call]
    · simp [ih]

/-- The function `cleanup_files` touches neither the lifecycle record nor the affinity and makes no
subsystem call. -/
theorem cleanup_files_frame (W : World) (dirpath : CString) (odp_pid : Int) (s : State) :
    (cleanup_files W dirpath odp_pid s).2.odp_global_data = s.odp_global_data ∧
    (cleanup_files W dirpath odp_pid s).2.affinity = s.affinity ∧
    subsys_calls (cleanup_files W dirpath odp_pid s).2.trace = subsys_calls s.trace := by
  unfold cleanup_files
  split
  · simp [State.emit, subsys_calls_cons, Event.is_subsys_call]
  · simp [cleanup_files_loop_frame, State.emit, subsys_calls_cons, Event.is_subsys_call]

/-- The return code of `odp_init_dpdk` depends on the state only through the affinity. -/
theorem odp_init_dpdk_ret (W : World) (cmdline : Option CString) (s : State) :
    (odp_init_dpdk W cmdline s).1 = bootstrap_ret W cmdline s.affinity := by
  unfold bootstrap_ret odp_init_dpdk odp_init_dpdk_resolved
  cases cmdline with
  | none =>
    cases W.getenv ODP_PLATFORM_PARAMS with
    | none => rfl
    | some c => simp only [State.emit]; split_ifs <;> rfl
  | some c => simp only [State.emit]; split_ifs <;> rfl

/-- The bootstrap `odp_init_dpdk` leaves the lifecycle record alone and makes no subsystem call. -/
theorem odp_init_dpdk_frame (W : World) (cmdline : Option CString) (s : State) :
    (odp_init_dpdk W cmdline s).2.odp_global_data = s.odp_global_data ∧
    subsys_calls (odp_init_dpdk W cmdline s).2.trace = subsys_calls s.trace := by
  unfold odp_init_dpdk odp_init_dpdk_resolved print_dpdk_env_help
  cases cmdline with
  | none =>
    cases W.getenv ODP_PLATFORM_PARAMS with
    | none => simp [State.emit, subsys_calls_cons, Event.is_subsys_call]
    | some c =>
      simp only [State.emit]
      split_ifs <;> simp [subsys_calls_cons, Event.is_subsys_call]
  | some c =>
    simp only [State.emit]
    split_ifs <;> simp [subsys_calls_cons, Event.is_subsys_call]

/-- The bootstrap `odp_init_dpdk` returns 0 or -1. -/
theorem odp_init_dpdk_ret_cases (W : World) (cmdline : Option CString) (s : State) :
    (odp_init_dpdk W cmdline s).1 = 0 ∨ (odp_init_dpdk W cmdline s).1 = -1 := by
  unfold odp_init_dpdk odp_init_dpdk_resolved
  cases cmdline with
  | none =>
    cases W.getenv ODP_PLATFORM_PARAMS with
    | none => simp
    | some c => simp only [State.emit]; split_ifs <;> simp
  | some c => simp only [State.emit]; split_ifs <;> simp

@[simp]
theorem cleanup_files_gd (W : World) (d : CString) (p : Int) (s : State) :
    (cleanup_files W d p s).2.odp_global_data = s.odp_global_data := (cleanup_files_frame W d p s).1

@[simp]
theorem cleanup_files_affinity (W : World) (d : CString) (p : Int) (s : State) :
    (cleanup_files W d p s).2.affinity = s.affinity := (cleanup_files_frame W d p s).2.1

@[simp]
theorem cleanup_files_calls (W : World) (d : CString) (p : Int) (s : State) :
    subsys_calls (cleanup_files W d p s).2.trace = subsys_calls s.trace :=
  (cleanup_files_frame W d p s).2.2

@[simp]
theorem odp_init_dpdk_gd (W : World) (c : Option CString) (s : State) :
    (odp_init_dpdk W c s).2.odp_global_data = s.odp_global_data := (odp_init_dpdk_frame W c s).1

@[simp]
theorem odp_init_dpdk_calls (W : World) (c : Option CString) (s : State) :
    subsys_calls (odp_init_dpdk W c s).2.trace = subsys_calls s.trace :=
  (odp_init_dpdk_frame W c s).2

/-- The shape of `odp_init_global`: the four guarded steps up to the system-information stage,
then the table-driven tail, with what is known of the state at each exit. -/
theorem init_global_prefix (W : World) (inst : odp_instance_t) (params : Option odp_init_t)
    (pp : Option odp_platform_init_t) (s : State) :
    ∃ s1 s2 s3 s4 s5 : State,
      odp_init_global W inst params pp s =
        (if W.init_global .cpumask ≠ 0 then init_failed W inst .NO_INIT s1
         else if (odp_init_dpdk W (dpdk_cmdline_arg pp) s1).1 ≠ 0 then (-1, inst, s2)
         else if W.init_global .time ≠ 0 then init_failed W inst .CPUMASK_INIT s3
         else if W.init_global .system_info ≠ 0 then init_failed W inst .TIME_INIT s4
         else forward W inst init_steps_tail s5) ∧
      s1.affinity = s.affinity ∧
      (s1.odp_global_data.main_pid = W.getpid ∧
        subsys_calls s1.trace = subsys_calls s.trace ++ [.init_global .cpumask]) ∧
      (s2.odp_global_data.main_pid = W.getpid ∧
        subsys_calls s2.trace = subsys_calls s.trace ++ [.init_global .cpumask]) ∧
      (s3.odp_global_data.main_pid = W.getpid ∧
        subsys_calls s3.trace =
          subsys_calls s.trace ++ [.init_global .cpumask, .init_global .time]) ∧
      (s4.odp_global_data.main_pid = W.getpid ∧
        subsys_calls s4.trace =
          subsys_calls s.trace ++
            [.init_global .cpumask, .init_global .time, .init_global .system_info]) ∧
      (s5.odp_global_data.main_pid = W.getpid ∧
        subsys_calls s5.trace =
          subsys_calls s.trace ++
            [.init_global .cpumask, .init_global .time, .init_global .system_info]) := by
  refine ⟨_, _, _, _, _, rfl, ?_, ?_, ?_, ?_, ?_, ?_⟩
  · simp [call_init_global, State.emit]
  · simp [call_init_global, State.emit, subsys_calls_cons, Event.is_subsys_call]
  · simp [call_init_global, State.emit, subsys_calls_cons, Event.is_subsys_call]
  · simp [call_init_global, State.emit, subsys_calls_cons, Event.is_subsys_call]
  · simp [call_init_global, State.emit, subsys_calls_cons, Event.is_subsys_call]
  · constructor
    · split <;> simp [call_init_global, State.emit]
    · split <;> simp [call_init_global, State.emit, subsys_calls_cons, Event.is_subsys_call]

/-- When every init of the table succeeds, `forward` calls them all and writes the handle. -/
theorem forward_success (W : World) (inst : odp_instance_t) (steps : List (Subsys × init_stage))
    (s : State) (h : ∀ p ∈ steps, W.init_global p.1 = 0) :
    forward W inst steps s =
      (0, to_instance s.odp_global_data.main_pid,
       { s with trace := s.trace ++ steps.map (fun p => Event.init_global p.1) }) := by
  induction steps generalizing s with
  | nil => simp [forward]
  | cons p rest ih =>
    obtain ⟨x, stage⟩ := p
    have hx : W.init_global x = 0 := h (x, stage) (by simp)
    have hrest : ∀ p ∈ rest, W.init_global p.1 = 0 := fun p hp => h p (by simp [hp])
    simp [forward, call_init_global, hx, ih _ hrest, State.emit]

/-- When `k` is the first init of the table to fail, `forward` calls the inits up to `k` and
unwinds from the marker of `k`. -/
theorem forward_failure (W : World) (inst : odp_instance_t) (steps : List (Subsys × init_stage))
    (k : Subsys) (stage : init_stage) (post : List (Subsys × init_stage)) (s : State)
    (hdrop : steps.dropWhile (fun p => p.1 != k) = (k, stage) :: post)
    (hpre : ∀ p ∈ steps.takeWhile (fun p => p.1 != k), W.init_global p.1 = 0)
    (hk : W.init_global k ≠ 0) :
    forward W inst steps s =
      init_failed W inst stage
        { s with trace := s.trace ++
            (steps.takeWhile (fun p => p.1 != k)).map (fun p => Event.init_global p.1) ++
            [Event.init_global k] } := by
  induction steps generalizing s with
  | nil => simp at hdrop
  | cons p rest ih =>
    obtain ⟨x, st⟩ := p
    by_cases hxk : x = k
    · subst hxk
      simp at hdrop
      obtain ⟨h1, _⟩ := hdrop
      subst h1
      simp [forward, call_init_global, hk, State.emit]
    · have hne : (x != k) = true := by simpa using hxk
      simp only [List.dropWhile_cons, hne, if_true] at hdrop
      simp only [List.takeWhile_cons, hne, if_true] at hpre ⊢
      have hx : W.init_global x = 0 := hpre (x, st) (by simp)
      have hrest : ∀ p ∈ rest.takeWhile (fun p => p.1 != k), W.init_global p.1 = 0 :=
        fun p hp => hpre p (by simp [hp])
      simp [forward, call_init_global, hx, ih _ hdrop hrest, State.emit]

/-- What the `init_failed` label does: return -1, leave the handle, tear down from `stage`. -/
theorem init_failed_spec (W : World) (inst : odp_instance_t) (stage : init_stage) (s : State) :
    (init_failed W inst stage s).1 = -1 ∧ (init_failed W inst stage s).2.1 = inst ∧
    (init_failed W inst stage s).2.2.odp_global_data = s.odp_global_data ∧
    subsys_calls (init_failed W inst stage s).2.2.trace =
      subsys_calls s.trace ++ (teardown_order stage).map Event.term_global := by
  simp [init_failed, term_global_eq, subsys_calls_map_term_global]

/-- States with the same affinity give the bootstrap the same return code. -/
theorem bootstrap_ret_transfer (W : World) (c : Option CString) (s s1 : State)
    (ha : s1.affinity = s.affinity) :
    (odp_init_dpdk W c s1).1 = (odp_init_dpdk W c s).1 := by
  rw [odp_init_dpdk_ret, odp_init_dpdk_ret, ha]

/-- The run of `odp_init_global` in which stage `k` is the first init to fail. -/
theorem init_global_fail_at (W : World) (inst : odp_instance_t) (params : Option odp_init_t)
    (pp : Option odp_platform_init_t) (s : State) (k : Subsys)
    (hbefore : ∀ j ∈ stages_before global_order k, W.init_global j = 0)
    (hboot : k ≠ .cpumask → (odp_init_dpdk W (dpdk_cmdline_arg pp) s).1 = 0)
    (hk : W.init_global k ≠ 0) :
    (odp_init_global W inst params pp s).1 = -1 ∧
    (odp_init_global W inst params pp s).2.1 = inst ∧
    (odp_init_global W inst params pp s).2.2.odp_global_data.main_pid = W.getpid ∧
    subsys_calls (odp_init_global W inst params pp s).2.2.trace =
      subsys_calls s.trace ++ (stages_before global_order k ++ [k]).map Event.init_global ++
        (stages_before global_order k).reverse.map Event.term_global := by
  obtain ⟨s1, s2, s3, s4, s5, heq, ha, ⟨p1, c1⟩, -, ⟨p3, c3⟩, ⟨p4, c4⟩, ⟨p5, c5⟩⟩ :=
    init_global_prefix W inst params pp s
  rw [heq]
  by_cases hc : k = .cpumask
  · subst hc
    rw [if_pos hk]
    obtain ⟨r1, r2, r3, r4⟩ := init_failed_spec W inst .NO_INIT s1
    refine ⟨r1, r2, by rw [r3, p1], ?_⟩
    rw [r4, c1]
    rfl
  have hb1 : (odp_init_dpdk W (dpdk_cmdline_arg pp) s1).1 = 0 := by
    rw [bootstrap_ret_transfer W _ s s1 ha]; exact hboot hc
  have h1 : W.init_global .cpumask = 0 := hbefore .cpumask (by revert hc; cases k <;> decide)
  rw [if_neg (by simp [h1]), if_neg (by simp [hb1])]
  by_cases hc2 : k = .time
  · subst hc2
    rw [if_pos hk]
    obtain ⟨r1, r2, r3, r4⟩ := init_failed_spec W inst .CPUMASK_INIT s3
    refine ⟨r1, r2, by rw [r3, p3], ?_⟩
    rw [r4, c3]
    simp only [List.append_assoc]
    rfl
  have h2 : W.init_global .time = 0 :=
    hbefore .time (by revert hc hc2; cases k <;> decide)
  rw [if_neg (by simp [h2])]
  by_cases hc3 : k = .system_info
  · subst hc3
    rw [if_pos hk]
    obtain ⟨r1, r2, r3, r4⟩ := init_failed_spec W inst .TIME_INIT s4
    refine ⟨r1, r2, by rw [r3, p4], ?_⟩
    rw [r4, c4]
    simp only [List.append_assoc]
    rfl
  have h3 : W.init_global .system_info = 0 :=
    hbefore .system_info (by revert hc hc2 hc3; cases k <;> decide)
  rw [if_neg (by simp [h3])]
  have hdrop : ∃ stage post,
      init_steps_tail.dropWhile (fun p => p.1 != k) = (k, stage) :: post ∧
      ([Event.init_global .cpumask, .init_global .time, .init_global .system_info] ++
        ((init_steps_tail.takeWhile (fun p => p.1 != k)).map (fun p => Event.init_global p.1) ++
          [Event.init_global k])) ++ (teardown_order stage).map Event.term_global =
      (stages_before global_order k ++ [k]).map Event.init_global ++
        (stages_before global_order k).reverse.map Event.term_global := by
    cases k <;> first | contradiction | exact ⟨_, _, rfl, rfl⟩
  obtain ⟨stage, post, hd, hclosed⟩ := hdrop
  have hpre : ∀ p ∈ init_steps_tail.takeWhile (fun p => p.1 != k), W.init_global p.1 = 0 := by
    intro p hp
    apply hbefore
    revert p
    cases k <;> first | contradiction | decide
  rw [forward_failure W inst init_steps_tail k stage post s5 hd hpre hk]
  obtain ⟨r1, r2, r3, r4⟩ := init_failed_spec W inst stage
    { s5 with trace := s5.trace ++
        (init_steps_tail.takeWhile (fun p => p.1 != k)).map (fun p => Event.init_global p.1) ++
        [Event.init_global k] }
  refine ⟨r1, r2, by rw [r3]; exact p5, ?_⟩
  rw [r4]
  simp only [subsys_calls_append, c5, List.append_assoc]
  rw [← hclosed]
  have e1 : subsys_calls ((init_steps_tail.takeWhile (fun p => p.1 != k)).map
      (fun p => Event.init_global p.1)) =
      (init_steps_tail.takeWhile (fun p => p.1 != k)).map (fun p => Event.init_global p.1) := by
    generalize init_steps_tail.takeWhile (fun p => p.1 != k) = l
    induction l with
    | nil => rfl
    | cons p l ih => simp [subsys_calls_cons, Event.is_subsys_call, ih]
  have e2 : subsys_calls [Event.init_global k] = [Event.init_global k] := rfl
  rw [e1, e2]
  simp only [List.append_assoc, List.cons_append, List.nil_append]

/-- The run of `odp_init_global` in which the bootstrap fails after the cpu-mask init. -/
theorem init_global_boot_fail (W : World) (inst : odp_instance_t) (params : Option odp_init_t)
    (pp : Option odp_platform_init_t) (s : State)
    (hc : W.init_global .cpumask = 0)
    (hboot : (odp_init_dpdk W (dpdk_cmdline_arg pp) s).1 ≠ 0) :
    (odp_init_global W inst params pp s).1 = -1 ∧
    (odp_init_global W inst params pp s).2.1 = inst ∧
    (odp_init_global W inst params pp s).2.2.odp_global_data.main_pid = W.getpid ∧
    subsys_calls (odp_init_global W inst params pp s).2.2.trace =
      subsys_calls s.trace ++ [Event.init_global .cpumask] := by
  obtain ⟨s1, s2, s3, s4, s5, heq, ha, -, ⟨p2, c2⟩, -, -, -⟩ :=
    init_global_prefix W inst params pp s
  have hb1 : (odp_init_dpdk W (dpdk_cmdline_arg pp) s1).1 ≠ 0 := by
    rw [bootstrap_ret_transfer W _ s s1 ha]; exact hboot
  rw [heq, if_neg (by simp [hc]), if_pos hb1]
  exact ⟨rfl, rfl, p2, c2⟩

/-- The run of `odp_init_global` in which the bootstrap and every init succeed. -/
theorem init_global_all_ok (W : World) (inst : odp_instance_t) (params : Option odp_init_t)
    (pp : Option odp_platform_init_t) (s : State)
    (hall : ∀ x, W.init_global x = 0)
    (hboot : (odp_init_dpdk W (dpdk_cmdline_arg pp) s).1 = 0) :
    (odp_init_global W inst params pp s).1 = 0 ∧
    (odp_init_global W inst params pp s).2.1 = to_instance W.getpid ∧
    (odp_init_global W inst params pp s).2.2.odp_global_data.main_pid = W.getpid ∧
    subsys_calls (odp_init_global W inst params pp s).2.2.trace =
      subsys_calls s.trace ++ global_order.map Event.init_global := by
  obtain ⟨s1, s2, s3, s4, s5, heq, ha, -, -, -, -, ⟨p5, c5⟩⟩ :=
    init_global_prefix W inst params pp s
  have hb1 : (odp_init_dpdk W (dpdk_cmdline_arg pp) s1).1 = 0 := by
    rw [bootstrap_ret_transfer W _ s s1 ha]; exact hboot
  rw [heq, if_neg (by simp [hall]), if_neg (by simp [hb1]), if_neg (by simp [hall]),
    if_neg (by simp [hall]), forward_success W inst _ _ (fun p _ => hall p.1)]
  refine ⟨rfl, by simp [p5], p5, ?_⟩
  simp only [subsys_calls_append, c5, List.append_assoc]
  rfl

/-- Every combination of init outcomes is one of: all succeed; the bootstrap fails after a
successful cpu-mask init; or some stage is the first to fail. -/
theorem init_global_outcomes (W : World) (c : Option CString) (s : State) :
    ((∀ x, W.init_global x = 0) ∧ (odp_init_dpdk W c s).1 = 0) ∨
    (W.init_global .cpumask = 0 ∧ (odp_init_dpdk W c s).1 ≠ 0) ∨
    (∃ k, (∀ j ∈ stages_before global_order k, W.init_global j = 0) ∧
      (k ≠ .cpumask → (odp_init_dpdk W c s).1 = 0) ∧ W.init_global k ≠ 0) := by
  by_cases h1 : W.init_global .cpumask = 0
  swap
  · exact Or.inr (Or.inr ⟨.cpumask, fun j hj => absurd hj (by simp [stages_before, global_order]), by simp, h1⟩)
  by_cases hb : (odp_init_dpdk W c s).1 = 0
  swap
  · exact Or.inr (Or.inl ⟨h1, hb⟩)
  by_cases hall : ∀ x, W.init_global x = 0
  · exact Or.inl ⟨hall, hb⟩
  right; right
  -- the first failing stage of the fixed order
  have hex : ∃ k ∈ global_order, W.init_global k ≠ 0 := by
    push_neg at hall
    obtain ⟨x, hx⟩ := hall
    exact ⟨x, by cases x <;> decide, hx⟩
  have key : ∀ (l : List Subsys), (∃ k ∈ l, W.init_global k ≠ 0) →
      ∃ k ∈ l, (∀ j ∈ l.takeWhile (fun x => x != k), W.init_global j = 0) ∧
        W.init_global k ≠ 0 := by
    intro l
    induction l with
    | nil => simp
    | cons a l ih =>
      intro hl
      by_cases ha : W.init_global a = 0
      · obtain ⟨k, hk, hkf⟩ := hl
        have hk' : k ∈ l := by
          rcases List.mem_cons.mp hk with rfl | h
          · exact absurd ha hkf
          · exact h
        obtain ⟨k0, hk0, hpre, hf⟩ := ih ⟨k, hk', hkf⟩
        refine ⟨k0, List.mem_cons_of_mem _ hk0, ?_, hf⟩
        have hne : (a != k0) = true := by
          simp only [bne_iff_ne, ne_eq]
          rintro rfl
          exact hf ha
        intro j hj
        simp only [List.takeWhile_cons, hne, if_true] at hj
        rcases List.mem_cons.mp hj with rfl | h
        · exact ha
        · exact hpre j h
      · exact ⟨a, List.mem_cons_self _ _, by simp [List.takeWhile_cons], ha⟩
  obtain ⟨k, -, hpre, hf⟩ := key global_order hex
  exact ⟨k, hpre, fun _ => hb, hf⟩

/-- The state after `_odp_term_local`: one local term call per block run. -/
theorem term_local_state (W : World) (stage : init_stage) (s : State) :
    (_odp_term_local W stage s).2 =
      { s with trace := s.trace ++ (local_teardown_order stage).map Event.term_local } := by
  cases stage <;>
    simp [_odp_term_local, switch_fallthrough, term_local_block, term_local_thread_block,
      State.emit, local_teardown_order]

/-- The return code of `odp_init_global` is 0 exactly when the bootstrap and every init succeed. -/
theorem init_global_ret_zero_iff (W : World) (inst : odp_instance_t) (params : Option odp_init_t)
    (pp : Option odp_platform_init_t) (s : State) :
    (odp_init_global W inst params pp s).1 = 0 ↔
      ((∀ x, W.init_global x = 0) ∧ (odp_init_dpdk W (dpdk_cmdline_arg pp) s).1 = 0) := by
  constructor
  · intro hinit
    rcases init_global_outcomes W (dpdk_cmdline_arg pp) s with h | ⟨hc, hb⟩ | ⟨k, hpre, hb, hk⟩
    · exact h
    · have := (init_global_boot_fail W inst params pp s hc hb).1
      rw [this] at hinit; exact absurd hinit (by decide)
    · have := (init_global_fail_at W inst params pp s k hpre hb hk).1
      rw [this] at hinit; exact absurd hinit (by decide)
  · rintro ⟨hall, hb⟩
    exact (init_global_all_ok W inst params pp s hall hb).1

/-- A non-zero return code of `odp_init_global` is -1 and leaves the handle as it was. -/
theorem init_global_ret_neg_one (W : World) (inst : odp_instance_t) (params : Option odp_init_t)
    (pp : Option odp_platform_init_t) (s : State)
    (h : (odp_init_global W inst params pp s).1 ≠ 0) :
    (odp_init_global W inst params pp s).1 = -1 ∧ (odp_init_global W inst params pp s).2.1 = inst := by
  rcases init_global_outcomes W (dpdk_cmdline_arg pp) s with ⟨hall, hb⟩ | ⟨hc, hb⟩ | ⟨k, hpre, hb, hk⟩
  · exact absurd (init_global_all_ok W inst params pp s hall hb).1 h
  · obtain ⟨h1, h2, -, -⟩ := init_global_boot_fail W inst params pp s hc hb
    exact ⟨h1, h2⟩
  · obtain ⟨h1, h2, -, -⟩ := init_global_fail_at W inst params pp s k hpre hb hk
    exact ⟨h1, h2⟩

/-- Characters with the same code are equal. -/
theorem char_toNat_inj {a b : Char} (h : a.toNat = b.toNat) : a = b := by
  apply Char.ext
  apply UInt32.ext
  exact h

/-- Comparing the first `strlen(pfx)` characters gives 0 exactly when the name begins with `pfx`. -/
theorem strncmp_eq_zero_iff (pfx : CString) (hpfx : ∀ c ∈ pfx, c.toNat ≠ 0) (e : CString) :
    strncmp e pfx pfx.length = 0 ↔ pfx <+: e := by
  induction pfx generalizing e with
  | nil => simp [strncmp]
  | cons b bs ih =>
    have hb : b.toNat ≠ 0 := hpfx b (by simp)
    have hbs : ∀ c ∈ bs, c.toNat ≠ 0 := fun c hc => hpfx c (by simp [hc])
    cases e with
    | nil =>
      simp only [List.length_cons, strncmp, List.prefix_nil]
      constructor
      · intro h; exfalso; apply hb; omega
      · intro h; exact absurd h (by simp)
    | cons a as =>
      simp only [List.length_cons, strncmp, List.cons_prefix_cons]
      by_cases hab : a = b
      · subst hab
        simp [ih hbs as]
      · simp only [if_neg hab]
        constructor
        · intro h
          exfalso
          apply hab
          apply char_toNat_inj
          omega
        · rintro ⟨h, -⟩
          exact absurd h.symm hab

/-- A decimal digit is rendered as one of the characters 0 to 9. -/
theorem digitChar_lt_ten (d : Nat) (hd : d < 10) :
    Nat.digitChar d ∈ "0123456789".toList := by
  interval_cases d <;> decide

/-- Different decimal digits are rendered differently. -/
theorem digitChar_inj (a b : Nat) (ha : a < 10) (hb : b < 10)
    (h : Nat.digitChar a = Nat.digitChar b) : a = b := by
  interval_cases a <;> interval_cases b <;> first | rfl | (exfalso; revert h; decide)

/-- The decimal rendering loop in terms of the digits of the number. -/
theorem toDigitsCore_eq (fuel n : Nat) (acc : List Char) (h : n < fuel) :
    Nat.toDigitsCore 10 fuel n acc =
      (if n = 0 then ['0'] else ((Nat.digits 10 n).map Nat.digitChar).reverse) ++ acc := by
  induction fuel generalizing n acc with
  | zero => omega
  | succ fuel ih =>
    simp only [Nat.toDigitsCore]
    by_cases h0 : n / 10 = 0
    · simp only [h0, if_true]
      have hlt : n < 10 := by omega
      by_cases hn : n = 0
      · subst hn; rfl
      · rw [if_neg hn, Nat.digits_of_lt 10 n hn hlt, Nat.mod_eq_of_lt hlt]
        rfl
    · simp only [h0, if_false]
      have hn : n ≠ 0 := by rintro rfl; simp at h0
      have hlt : n / 10 < fuel := by omega
      rw [ih (n / 10) _ hlt, if_neg h0, if_neg hn]
      conv_rhs => rw [Nat.digits_def' (by decide : 1 < 10) (Nat.pos_of_ne_zero hn)]
      simp

/-- The decimal rendering in terms of the digits of the number. -/
theorem toDigits_eq (n : Nat) :
    Nat.toDigits 10 n =
      if n = 0 then ['0'] else ((Nat.digits 10 n).map Nat.digitChar).reverse := by
  unfold Nat.toDigits
  rw [toDigitsCore_eq (n + 1) n [] (by omega)]
  simp

/-- The decimal rendering consists of the characters 0 to 9. -/
theorem toDigits_mem (n : Nat) (c : Char) (hc : c ∈ Nat.toDigits 10 n) :
    c ∈ "0123456789".toList := by
  rw [toDigits_eq] at hc
  split_ifs at hc with h0
  · simp at hc; subst hc; decide
  · simp only [List.mem_reverse, List.mem_map] at hc
    obtain ⟨d, hd, rfl⟩ := hc
    exact digitChar_lt_ten d (Nat.digits_lt_base (by decide) hd)

/-- The decimal rendering is not empty. -/
theorem toDigits_ne_nil (n : Nat) : Nat.toDigits 10 n ≠ [] := by
  rw [toDigits_eq]
  split_ifs with h0
  · simp
  · simp [Nat.digits_eq_nil_iff_eq_zero, h0]

/-- Rendering digit by digit is injective. -/
theorem map_digitChar_inj (l1 l2 : List Nat) (h1 : ∀ d ∈ l1, d < 10) (h2 : ∀ d ∈ l2, d < 10)
    (h : l1.map Nat.digitChar = l2.map Nat.digitChar) : l1 = l2 := by
  induction l1 generalizing l2 with
  | nil => cases l2 with
    | nil => rfl
    | cons b l2 => simp at h
  | cons a l1 ih =>
    cases l2 with
    | nil => simp at h
    | cons b l2 =>
      simp only [List.map_cons, List.cons.injEq] at h
      have hab := digitChar_inj a b (h1 a (by simp)) (h2 b (by simp)) h.1
      have := ih l2 (fun d hd => h1 d (by simp [hd])) (fun d hd => h2 d (by simp [hd])) h.2
      rw [hab, this]

/-- Different numbers have different decimal renderings. -/
theorem toDigits_inj (n m : Nat) (h : Nat.toDigits 10 n = Nat.toDigits 10 m) : n = m := by
  rw [toDigits_eq, toDigits_eq] at h
  have key : ∀ k : Nat, k ≠ 0 →
      ((Nat.digits 10 k).map Nat.digitChar).reverse ≠ ['0'] := by
    intro k hk hrev
    have h1 : (Nat.digits 10 k).map Nat.digitChar = ['0'] := by
      have := congrArg List.reverse hrev
      simpa using this
    have h2 : (Nat.digits 10 k) = [0] := by
      apply map_digitChar_inj _ _ (fun d hd => Nat.digits_lt_base (by decide) hd)
        (by simp)
      rw [h1]; rfl
    have h3 := Nat.getLast_digit_ne_zero 10 hk
    simp [h2] at h3
  by_cases hn : n = 0 <;> by_cases hm : m = 0
  · rw [hn, hm]
  · rw [if_pos hn, if_neg hm] at h
    exact absurd h.symm (key m hm)
  · rw [if_neg hn, if_pos hm] at h
    exact absurd h (key n hn)
  · rw [if_neg hn, if_neg hm] at h
    have h1 : (Nat.digits 10 n).map Nat.digitChar = (Nat.digits 10 m).map Nat.digitChar := by
      have := congrArg List.reverse h
      simpa using this
    have h2 := map_digitChar_inj _ _ (fun d hd => Nat.digits_lt_base (by decide) hd)
      (fun d hd => Nat.digits_lt_base (by decide) hd) h1
    exact Nat.digits_inj_iff.mp h2

/-- Two dash-free strings, each followed by a dash, one a beginning of the other, are equal. -/
theorem dash_split (A B x y : List Char) (hA : ∀ c ∈ A, c ≠ '-') (hB : ∀ c ∈ B, c ≠ '-')
    (h : A ++ '-' :: x <+: B ++ '-' :: y) : A = B := by
  induction A generalizing B with
  | nil =>
    cases B with
    | nil => rfl
    | cons b B =>
      simp only [List.nil_append, List.cons_append, List.cons_prefix_cons] at h
      exact absurd h.1.symm (hB b (by simp))
  | cons a A ih =>
    cases B with
    | nil =>
      simp only [List.nil_append, List.cons_append, List.cons_prefix_cons] at h
      exact absurd h.1 (hA a (by simp))
    | cons b B =>
      simp only [List.cons_append, List.cons_prefix_cons] at h
      rw [h.1, ih B (fun c hc => hA c (by simp [hc])) (fun c hc => hB c (by simp [hc])) h.2]

/-- The decimal rendering holds no dash. -/
theorem toDigits_no_dash (n : Nat) : ∀ c ∈ Nat.toDigits 10 n, c ≠ '-' := by
  intro c hc
  have := toDigits_mem n c hc
  rintro rfl
  revert this
  decide

/-- The decimal rendering starts with a character that is not a dash. -/
theorem toDigits_head_no_dash (n : Nat) (x : List Char) :
    ∃ d rest, Nat.toDigits 10 n ++ x = d :: rest ∧ d ≠ '-' := by
  cases h : Nat.toDigits 10 n with
  | nil => exact absurd h (toDigits_ne_nil n)
  | cons d ds =>
    refine ⟨d, ds ++ x, rfl, toDigits_no_dash n d ?_⟩
    rw [h]; simp

/-- A name that begins with `odp-<pid>-` and with `odp-<other>-` has `pid = other`. -/
theorem files_fmt_prefix_inj (pid other : Int) (rest : CString)
    (h : _ODP_FILES_FMT pid <+: _ODP_FILES_FMT other ++ rest) : pid = other := by
  unfold _ODP_FILES_FMT at h
  have e : "odp-".toList = ['o', 'd', 'p', '-'] := rfl
  have e2 : "-".toList = ['-'] := rfl
  simp only [e, e2, List.cons_append, List.nil_append, List.append_assoc,
    List.cons_prefix_cons, true_and] at h
  unfold fmt_d at h
  by_cases hp : pid < 0 <;> by_cases ho : other < 0
  · simp only [if_pos hp, if_pos ho, List.cons_append, List.cons_prefix_cons, true_and] at h
    have := toDigits_inj _ _ (dash_split _ _ _ _ (toDigits_no_dash _) (toDigits_no_dash _) h)
    omega
  · simp only [if_pos hp, if_neg ho, List.cons_append] at h
    obtain ⟨d, r, hd, hne⟩ := toDigits_head_no_dash other.toNat ('-' :: rest)
    rw [hd, List.cons_prefix_cons] at h
    exact absurd h.1.symm hne
  · simp only [if_neg hp, if_pos ho, List.cons_append] at h
    obtain ⟨d, r, hd, hne⟩ := toDigits_head_no_dash pid.toNat ['-']
    rw [hd, List.cons_prefix_cons] at h
    exact absurd h.1 hne
  · simp only [if_neg hp, if_neg ho] at h
    have := toDigits_inj _ _ (dash_split _ _ _ _ (toDigits_no_dash _) (toDigits_no_dash _) h)
    omega

/-- A number below ten thousand million has at most ten decimal digits. -/
theorem toDigits_length_le (n : Nat) (h : n < 10 ^ 10) : (Nat.toDigits 10 n).length ≤ 10 := by
  exact Nat.repr_length n 10 (by decide) h

/-- For an `int` pid the text `odp-<pid>-` fits the `PATH_MAX` buffer. -/
theorem files_fmt_length (pid : Int) (hpid : -2 ^ 31 ≤ pid ∧ pid < 2 ^ 31) :
    (_ODP_FILES_FMT pid).length ≤ PATH_MAX - 1 := by
  have e : "odp-".toList = ['o', 'd', 'p', '-'] := rfl
  have e2 : "-".toList = ['-'] := rfl
  unfold _ODP_FILES_FMT fmt_d PATH_MAX
  simp only [e, e2]
  split_ifs with hp
  · have := toDigits_length_le (-pid).toNat (by omega)
    simp only [List.length_append, List.length_cons, List.length_nil]
    omega
  · have := toDigits_length_le pid.toNat (by omega)
    simp only [List.length_append, List.length_cons, List.length_nil]
    omega

/-- The text `odp-<pid>-` holds no NUL character. -/
theorem files_fmt_no_nul (pid : Int) : ∀ c ∈ _ODP_FILES_FMT pid, c.toNat ≠ 0 := by
  intro c hc
  have e : "odp-".toList = ['o', 'd', 'p', '-'] := rfl
  have e2 : "-".toList = ['-'] := rfl
  have hall : ∀ c ∈ "0123456789odp-".toList, c.toNat ≠ 0 := by decide
  apply hall
  have hdig : ∀ n, c ∈ Nat.toDigits 10 n → c ∈ "0123456789odp-".toList := by
    intro n hn
    have := toDigits_mem n c hn
    have e3 : "0123456789odp-".toList = "0123456789".toList ++ ['o', 'd', 'p', '-'] := rfl
    rw [e3]
    exact List.mem_append_left _ this
  unfold _ODP_FILES_FMT fmt_d at hc
  by_cases hp : pid < 0
  · simp only [e, e2, if_pos hp, List.mem_append, List.mem_cons, List.mem_singleton,
      List.not_mem_nil, or_false] at hc
    rcases hc with ((h | h | h | h) | h | h) | h
    · subst h; decide
    · subst h; decide
    · subst h; decide
    · subst h; decide
    · subst h; decide
    · exact hdig _ h
    · subst h; decide
  · simp only [e, e2, if_neg hp, List.mem_append, List.mem_cons, List.mem_singleton,
      List.not_mem_nil, or_false] at hc
    rcases hc with ((h | h | h | h) | h) | h
    · subst h; decide
    · subst h; decide
    · subst h; decide
    · subst h; decide
    · exact hdig _ h
    · subst h; decide

/-- A text that fits the buffer is left whole by `snprintf`. -/
theorem snprintf_of_fits (size : Nat) (t : CString) (h : t.length ≤ size - 1) :
    snprintf size t = t := by
  unfold snprintf
  exact List.take_of_length_le h

/-- When no allocation fails the scan loop returns 0 after unlinking the matching entries. -/
theorem cleanup_files_loop_ok (W : World) (dirpath pfx : CString)
    (hpfx : ∀ c ∈ pfx, c.toNat ≠ 0) (hmalloc : ∀ i, W.malloc_fails dirpath i = false)
    (entries : List CString) (i : Nat) (s : State) :
    cleanup_files_loop W dirpath pfx entries i s =
      (0, { s with trace := s.trace ++ matching_unlinks W dirpath pfx entries i }) := by
  induction entries generalizing i s with
  | nil => simp [cleanup_files_loop, matching_unlinks]
  | cons e es ih =>
    simp only [cleanup_files_loop, strncmp_eq_zero_iff pfx hpfx e, hmalloc, ih]
    by_cases hp : pfx <+: e
    · have hb : pfx.isPrefixOf e = true := List.isPrefixOf_iff_prefix.mpr hp
      simp [hp, matching_unlinks, List.enumFrom_cons, List.filter_cons, hb, State.emit]
    · have hb : pfx.isPrefixOf e = false := by
        rw [Bool.eq_false_iff]; intro h; exact hp (List.isPrefixOf_iff_prefix.mp h)
      simp [hp, matching_unlinks, List.enumFrom_cons, List.filter_cons, hb]

/-- When the allocation fails for an entry that begins with `pfx`, the scan loop returns -1. -/
theorem cleanup_files_loop_alloc_fail (W : World) (dirpath pfx : CString)
    (hpfx : ∀ c ∈ pfx, c.toNat ≠ 0) (entries : List CString) (i : Nat) (s : State)
    (h : ∃ j e, entries.get? j = some e ∧ pfx <+: e ∧ W.malloc_fails dirpath (i + j) = true) :
    (cleanup_files_loop W dirpath pfx entries i s).1 = -1 := by
  induction entries generalizing i s with
  | nil =>
    obtain ⟨j, e, hj, -, -⟩ := h
    simp at hj
  | cons d es ih =>
    obtain ⟨j, e, hj, hp, hm⟩ := h
    simp only [cleanup_files_loop, strncmp_eq_zero_iff pfx hpfx d]
    cases j with
    | zero =>
      simp only [List.get?_cons_zero, Option.some.injEq] at hj
      subst hj
      simp only [Nat.add_zero] at hm
      simp [hp, hm]
    | succ j =>
      simp only [List.get?_cons_succ] at hj
      have hrec : ∃ j' e', es.get? j' = some e' ∧ pfx <+: e' ∧
          W.malloc_fails dirpath (i + 1 + j') = true :=
        ⟨j, e, hj, hp, by rw [← hm]; congr 1; omega⟩
      split_ifs
      · rfl
      · exact ih (i + 1) _ hrec
      · exact ih (i + 1) _ hrec

/-! ## Supporting lemmas: bootstrap, argument vector, local teardown -/

/-- The body of `odp_init_dpdk` after the command string is resolved, exit by exit. -/
theorem odp_init_dpdk_resolved_eq (W : World) (c : CString) (s : State) :
    odp_init_dpdk_resolved W c s =
      if W.pthread_getaffinity_np ≠ 0 then
        (-1, { s with trace := s.trace ++ [.pthread_getaffinity_np] })
      else if (W.odp_cpumask_to_str (rendered_mask s.affinity)).1 < 0 then
        (-1, { s with trace := s.trace ++
          [.pthread_getaffinity_np, .odp_cpumask_to_str (rendered_mask s.affinity)] })
      else if (W.rte_eal_init
          (dpdk_argv (W.odp_cpumask_to_str (rendered_mask s.affinity)).2 c) s.affinity).1 < 0 then
        (-1, { s with
          affinity := (W.rte_eal_init
            (dpdk_argv (W.odp_cpumask_to_str (rendered_mask s.affinity)).2 c) s.affinity).2
          trace := s.trace ++
            [.pthread_getaffinity_np, .odp_cpumask_to_str (rendered_mask s.affinity),
             .rte_eal_init (dpdk_argv (W.odp_cpumask_to_str (rendered_mask s.affinity)).2 c)] })
      else
        (0, { s with
          affinity :=
            if W.pthread_setaffinity_np s.affinity = 0 then s.affinity
            else (W.rte_eal_init
              (dpdk_argv (W.odp_cpumask_to_str (rendered_mask s.affinity)).2 c) s.affinity).2
          trace := s.trace ++
            [.pthread_getaffinity_np, .odp_cpumask_to_str (rendered_mask s.affinity),
             .rte_eal_init (dpdk_argv (W.odp_cpumask_to_str (rendered_mask s.affinity)).2 c),
             .pthread_setaffinity_np s.affinity] }) := by
  simp only [odp_init_dpdk_resolved, State.emit, rendered_mask, dpdk_argv, full_cmdline_text]
  split_ifs <;> simp

/-- The loop of `odp_init_dpdk` started at CPU `i` with `n` iterations left returns the
one-CPU mask of `i0` when `i0` is the first CPU of the snapshot from `i` on and is reached. -/
theorem first_cpu_loop_eq (a : cpu_set_t) (n i i0 : Nat) (h1 : i ≤ i0) (h2 : i0 < i + n)
    (h3 : CPU_ISSET i0 a = true) (h4 : ∀ j, i ≤ j → j < i0 → CPU_ISSET j a = false) :
    first_cpu_loop a n i odp_cpumask_zero = 2 ^ i0 := by
  induction n generalizing i with
  | zero => omega
  | succ n ih =>
    simp only [first_cpu_loop]
    by_cases hi : i = i0
    · subst hi
      simp [h3, odp_cpumask_set, odp_cpumask_zero, Nat.one_shiftLeft]
    · have hlt : i < i0 := by omega
      rw [h4 i (Nat.le_refl _) hlt]
      simp only [Bool.false_eq_true, if_false]
      exact ih (i + 1) (by omega) (by omega) (fun j hj hj' => h4 j (by omega) hj')

theorem init_calls_append (a b : List Event) :
    init_calls (a ++ b) = init_calls a ++ init_calls b := by
  simp [init_calls]

/-- Only subsystem calls count as init calls. -/
theorem init_calls_subsys_calls (tr : List Event) :
    init_calls (subsys_calls tr) = init_calls tr := by
  induction tr with
  | nil => rfl
  | cons e tr ih =>
    cases e <;> simp_all [init_calls, subsys_calls, Event.is_subsys_call, List.filter_cons]

theorem init_calls_map_init (xs : List Subsys) :
    init_calls (xs.map Event.init_global) = xs := by
  induction xs with
  | nil => rfl
  | cons x xs ih => simp_all [init_calls]

theorem init_calls_map_term (xs : List Subsys) :
    init_calls (xs.map Event.term_global) = [] := by
  induction xs with
  | nil => rfl
  | cons x xs ih => simp_all [init_calls]

/-- The fall-through `switch` of `_odp_term_local` runs the blocks of
`local_teardown_order stage`. -/
theorem term_local_unfold (W : World) (stage : init_stage) (s : State) :
    _odp_term_local W stage s =
      ((local_teardown_order stage).map (local_term_block W)).foldl (fun a b => b a) (0, s) := by
  cases stage <;> rfl

/-- The five local teardown sequences. -/
theorem local_teardown_order_cases (stage : init_stage) :
    local_teardown_order stage = [] ∨ local_teardown_order stage = [.shm] ∨
    local_teardown_order stage = [.thread, .shm] ∨
    local_teardown_order stage = [.pool, .thread, .shm] ∨
    local_teardown_order stage = [.sched, .pool, .thread, .shm] := by
  cases stage <;> simp [local_teardown_order]

/-- The return code of `_odp_term_local` in terms of the results of the terms it calls. -/
theorem term_local_ret (W : World) (stage : init_stage) (s : State) :
    ((_odp_term_local W stage s).1 = -1 ↔
      ∃ x ∈ local_teardown_order stage, local_term_failed W x) ∧
    ((∀ x ∈ local_teardown_order stage, ¬ local_term_failed W x) →
      (_odp_term_local W stage s).1 =
        if Subsys.thread ∈ local_teardown_order stage then W.term_local .thread else 0) := by
  rw [term_local_unfold]
  rcases local_teardown_order_cases stage with h | h | h | h | h <;> rw [h] <;>
    simp only [List.map_cons, List.map_nil, List.foldl_cons, List.foldl_nil, local_term_block,
      term_local_block, term_local_thread_block, local_term_failed, List.mem_cons,
      List.mem_singleton, List.not_mem_nil, or_false, exists_eq_or_imp, exists_eq_left,
      forall_eq_or_imp, forall_eq, reduceCtorEq, if_false, if_true, false_or, or_false,
      exists_false, false_and, IsEmpty.forall_iff, implies_true]
  · simp
  · by_cases h4 : W.term_local .shm = 0 <;> simp [h4]
  · by_cases h3 : W.term_local .thread < 0 <;> by_cases h4 : W.term_local .shm = 0 <;>
      (simp [h3, h4]; try omega)
  · by_cases h2 : W.term_local .pool = 0 <;>
      by_cases h3 : W.term_local .thread < 0 <;> by_cases h4 : W.term_local .shm = 0 <;>
      (simp [h2, h3, h4]; try omega)
  · by_cases h1 : W.term_local .sched = 0 <;> by_cases h2 : W.term_local .pool = 0 <;>
      by_cases h3 : W.term_local .thread < 0 <;> by_cases h4 : W.term_local .shm = 0 <;>
      (simp [h1, h2, h3, h4]; try omega)

/-- The outcome of `odp_init_global` is fixed by the init results and the bootstrap's return
code: two worlds that agree on them give the same return code, handle and subsystem calls. -/
theorem init_global_determined (W W' : World) (inst : odp_instance_t)
    (params : Option odp_init_t) (pp : Option odp_platform_init_t) (s : State)
    (hinit : ∀ x, W'.init_global x = W.init_global x)
    (hpid : W'.getpid = W.getpid)
    (hboot : (odp_init_dpdk W' (dpdk_cmdline_arg pp) s).1 =
      (odp_init_dpdk W (dpdk_cmdline_arg pp) s).1) :
    (odp_init_global W' inst params pp s).1 = (odp_init_global W inst params pp s).1 ∧
    (odp_init_global W' inst params pp s).2.1 = (odp_init_global W inst params pp s).2.1 ∧
    subsys_calls (odp_init_global W' inst params pp s).2.2.trace =
      subsys_calls (odp_init_global W inst params pp s).2.2.trace := by
  rcases init_global_outcomes W (dpdk_cmdline_arg pp) s with
    ⟨hall, hb⟩ | ⟨hc, hb⟩ | ⟨k, hpre, hb, hk⟩
  · obtain ⟨a1, a2, -, a4⟩ := init_global_all_ok W inst params pp s hall hb
    obtain ⟨b1, b2, -, b4⟩ := init_global_all_ok W' inst params pp s
      (fun x => by rw [hinit]; exact hall x) (by rw [hboot]; exact hb)
    rw [a1, a2, a4, b1, b2, b4, hpid]
    exact ⟨rfl, rfl, rfl⟩
  · obtain ⟨a1, a2, -, a4⟩ := init_global_boot_fail W inst params pp s hc hb
    obtain ⟨b1, b2, -, b4⟩ := init_global_boot_fail W' inst params pp s
      (by rw [hinit]; exact hc) (by rw [hboot]; exact hb)
    rw [a1, a2, a4, b1, b2, b4]
    exact ⟨rfl, rfl, rfl⟩
  · obtain ⟨a1, a2, -, a4⟩ := init_global_fail_at W inst params pp s k hpre hb hk
    obtain ⟨b1, b2, -, b4⟩ := init_global_fail_at W' inst params pp s k
      (fun j hj => by rw [hinit]; exact hpre j hj) (fun h => by rw [hboot]; exact hb h)
      (by rw [hinit]; exact hk)
    rw [a1, a2, a4, b1, b2, b4]
    exact ⟨rfl, rfl, rfl⟩

theorem env_reads_append (a b : List Event) : env_reads (a ++ b) = env_reads a ++ env_reads b := by
  simp [env_reads]

theorem env_reads_map_init (xs : List Subsys) : env_reads (xs.map Event.init_global) = [] := by
  induction xs with
  | nil => rfl
  | cons x xs ih => simp [env_reads, List.filter_cons, Event.is_getenv]

theorem env_reads_map_term (xs : List Subsys) : env_reads (xs.map Event.term_global) = [] := by
  induction xs with
  | nil => rfl
  | cons x xs ih => simp [env_reads, List.filter_cons, Event.is_getenv]

theorem cleanup_files_loop_env (W : World) (dirpath pfx : CString) (entries : List CString)
    (i : Nat) (s : State) :
    env_reads (cleanup_files_loop W dirpath pfx entries i s).2.trace = env_reads s.trace := by
  induction entries generalizing i s with
  | nil => simp [cleanup_files_loop]
  | cons e es ih =>
    simp only [cleanup_files_loop]
    split_ifs
    · rfl
    · rw [ih]
      simp [State.emit, env_reads, List.filter_cons, Event.is_getenv]
    · rw [ih]

theorem cleanup_files_env (W : World) (dirpath : CString) (odp_pid : Int) (s : State) :
    env_reads (cleanup_files W dirpath odp_pid s).2.trace = env_reads s.trace := by
  unfold cleanup_files
  split
  · simp [State.emit, env_reads, List.filter_cons, Event.is_getenv]
  · rw [cleanup_files_loop_env]
    simp [State.emit, env_reads, List.filter_cons, Event.is_getenv]

theorem odp_init_dpdk_some_env (W : World) (c : CString) (s : State) :
    env_reads (odp_init_dpdk W (some c) s).2.trace = env_reads s.trace := by
  show env_reads (odp_init_dpdk_resolved W c s).2.trace = _
  rw [odp_init_dpdk_resolved_eq]
  split_ifs <;> simp [env_reads, List.filter_cons, Event.is_getenv]

theorem init_failed_env (W : World) (inst : odp_instance_t) (stage : init_stage) (s : State) :
    env_reads (init_failed W inst stage s).2.2.trace = env_reads s.trace := by
  simp [init_failed, term_global_eq, env_reads_append, env_reads_map_term]

theorem forward_env (W : World) (inst : odp_instance_t) (steps : List (Subsys × init_stage))
    (s : State) : env_reads (forward W inst steps s).2.2.trace = env_reads s.trace := by
  induction steps generalizing s with
  | nil => rfl
  | cons p rest ih =>
    obtain ⟨x, stage⟩ := p
    simp only [forward]
    split_ifs
    · rw [init_failed_env]
      simp [call_init_global, State.emit, env_reads, List.filter_cons, Event.is_getenv]
    · rw [ih]
      simp [call_init_global, State.emit, env_reads, List.filter_cons, Event.is_getenv]

/-- With a platform-parameters record, `odp_init_global` makes no `getenv` call. -/
theorem init_global_env (W : World) (inst : odp_instance_t) (params : Option odp_init_t)
    (p : odp_platform_init_t) (s : State) :
    env_reads (odp_init_global W inst params (some p) s).2.2.trace = env_reads s.trace := by
  have hshape : ∃ s1 s2 s3 s4 s5 : State,
      odp_init_global W inst params (some p) s =
        (if W.init_global .cpumask ≠ 0 then init_failed W inst .NO_INIT s1
         else if (odp_init_dpdk W (dpdk_cmdline_arg (some p)) s1).1 ≠ 0 then (-1, inst, s2)
         else if W.init_global .time ≠ 0 then init_failed W inst .CPUMASK_INIT s3
         else if W.init_global .system_info ≠ 0 then init_failed W inst .TIME_INIT s4
         else forward W inst init_steps_tail s5) ∧
      env_reads s1.trace = env_reads s.trace ∧ env_reads s2.trace = env_reads s.trace ∧
      env_reads s3.trace = env_reads s.trace ∧ env_reads s4.trace = env_reads s.trace ∧
      env_reads s5.trace = env_reads s.trace := by
    have hd : ∀ t : State, env_reads (odp_init_dpdk W (dpdk_cmdline_arg (some p)) t).2.trace =
        env_reads t.trace := fun t => odp_init_dpdk_some_env W _ t
    have hstep : ∀ (x : Subsys) (t : State),
        env_reads (call_init_global W x t).2.trace = env_reads t.trace := by
      intro x t
      simp [call_init_global, State.emit, env_reads, List.filter_cons, Event.is_getenv]
    refine ⟨_, _, _, _, _, rfl, ?_, ?_, ?_, ?_, ?_⟩
    · rw [hstep, cleanup_files_env]
    · rw [hd, hstep, cleanup_files_env]
    · rw [hstep, hd, hstep, cleanup_files_env]
    · show env_reads (call_init_global W .system_info _).2.trace = _
      rw [hstep, hstep, hd, hstep, cleanup_files_env]
    · split
      · rw [cleanup_files_env]
        show env_reads (call_init_global W .system_info _).2.trace = _
        rw [hstep, hstep, hd, hstep, cleanup_files_env]
      · show env_reads (call_init_global W .system_info _).2.trace = _
        rw [hstep, hstep, hd, hstep, cleanup_files_env]
  obtain ⟨s1, s2, s3, s4, s5, heq, e1, e2, e3, e4, e5⟩ := hshape
  rw [heq]
  split_ifs
  · rw [init_failed_env, e1]
  · exact e2
  · rw [init_failed_env, e3]
  · rw [init_failed_env, e4]
  · rw [forward_env, e5]

/-- The file-system calls of `cleanup_files` do not depend on the environment. -/
theorem cleanup_files_loop_getenv (W : World) (g : CString → Option CString)
    (dirpath pfx : CString) (entries : List CString) (i : Nat) (s : State) :
    cleanup_files_loop { W with getenv := g } dirpath pfx entries i s =
      cleanup_files_loop W dirpath pfx entries i s := by
  induction entries generalizing i s with
  | nil => rfl
  | cons e es ih =>
    simp only [cleanup_files_loop, ih]

theorem cleanup_files_getenv (W : World) (g : CString → Option CString)
    (dirpath : CString) (odp_pid : Int) (s : State) :
    cleanup_files { W with getenv := g } dirpath odp_pid s = cleanup_files W dirpath odp_pid s := by
  simp only [cleanup_files, cleanup_files_loop_getenv]

theorem term_global_getenv (W : World) (g : CString → Option CString)
    (stage : init_stage) (s : State) :
    _odp_term_global { W with getenv := g } stage s = _odp_term_global W stage s := by
  rw [term_global_eq, term_global_eq]

/-- With a platform-parameters record the run of `odp_init_global` does not depend on the
environment. -/
theorem init_global_getenv (W : World) (g : CString → Option CString) (inst : odp_instance_t)
    (params : Option odp_init_t) (p : odp_platform_init_t) (s : State) :
    odp_init_global { W with getenv := g } inst params (some p) s =
      odp_init_global W inst params (some p) s := by
  simp only [odp_init_global, cleanup_files_getenv, init_failed, term_global_getenv]
  rfl

/-- A string without `delim` is one piece. -/
theorem split_pieces_no_delim (delim : Char) (cur s : CString) (hs : s.count delim = 0)
    (hne : cur ++ s ≠ []) : split_pieces delim cur s = [cur ++ s] := by
  induction s generalizing cur with
  | nil => simpa [split_pieces] using hne
  | cons c rest ih =>
    have hc : c ≠ delim := by
      rintro rfl
      simp at hs
    have hrest : rest.count delim = 0 := by
      rw [List.count_cons_of_ne (Ne.symm hc)] at hs
      exact hs
    simp only [split_pieces, if_neg hc]
    rw [ih (cur ++ [c]) hrest (by simp)]
    simp

/-- With enough slots the scan loop of `rte_strsplit` produces the pieces of the string. -/
theorem rte_strsplit_loop_eq (maxtokens : Nat) (delim : Char) (str : CString) (n tok : Nat)
    (tokstart : Bool) (closed : List CString) (cur : CString)
    (hn : str.length ≤ n)
    (htok : tok = closed.length + (if tokstart then 0 else 1))
    (hcur : tokstart = false → cur ≠ [])
    (hmax : closed.length + str.count delim + 1 ≤ maxtokens) :
    rte_strsplit_loop maxtokens delim str n tok tokstart closed cur =
      closed ++ split_pieces delim (if tokstart then [] else cur) str := by
  induction str generalizing n tok tokstart closed cur with
  | nil =>
    cases tokstart with
    | true => simp [rte_strsplit_loop, split_pieces]
    | false => simp [rte_strsplit_loop, split_pieces, hcur rfl]
  | cons c rest ih =>
    cases n with
    | zero => simp at hn
    | succ m =>
      have hm : rest.length ≤ m := by simpa using hn
      simp only [rte_strsplit_loop]
      by_cases hfull : tok ≥ maxtokens
      · -- the slots are used up: only possible when no delimiter is left
        have hts : tokstart = false := by
          cases tokstart with
          | true => simp at htok; omega
          | false => rfl
        subst hts
        have hcount : (c :: rest).count delim = 0 := by
          simp at htok; omega
        simp only [if_pos hfull, Bool.false_eq_true, if_false]
        rw [split_pieces_no_delim delim cur (c :: rest) hcount (by simp)]
      · simp only [if_neg hfull]
        by_cases hc : c = delim
        · subst hc
          simp only [if_true, split_pieces]
          rw [ih m _ true (closed ++ [if tokstart then [] else cur]) [] hm
            (by cases tokstart <;> simp_all) (by simp)
            (by simp only [List.length_append, List.length_singleton]
                simp only [List.count_cons_self] at hmax
                omega)]
          simp
        · simp only [if_neg hc, split_pieces]
          rw [ih m _ false closed ((if tokstart then [] else cur) ++ [c]) hm
            (by cases tokstart <;> simp_all) (by simp)
            (by rw [List.count_cons_of_ne (Ne.symm hc)] at hmax; exact hmax)]
          simp

/-- With at least one slot more than there are delimiters, `rte_strsplit` over the whole
string produces its pieces. -/
theorem rte_strsplit_eq (s : CString) (maxtokens : Nat) (delim : Char)
    (h : s.count delim + 1 ≤ maxtokens) :
    rte_strsplit s s.length maxtokens delim = split_pieces delim [] s := by
  unfold rte_strsplit
  rw [rte_strsplit_loop_eq maxtokens delim s s.length 0 true [] [] (Nat.le_refl _) (by simp)
    (by simp) (by simpa using h)]
  simp

/-- The `isspace` loop counts one slot plus one per whitespace character. -/
theorem dpdk_argc_loop_eq (s : CString) (k : Nat) :
    dpdk_argc_loop s k = k + s.countP isspace := by
  induction s generalizing k with
  | nil => simp [dpdk_argc_loop]
  | cons c rest ih =>
    simp only [dpdk_argc_loop, List.countP_cons]
    split_ifs with hc
    · rw [ih]; omega
    · rw [ih]; omega

/-- Spaces are among the whitespace characters. -/
theorem count_space_le (s : CString) : s.count ' ' ≤ s.countP isspace := by
  induction s with
  | nil => simp
  | cons c rest ih =>
    by_cases hc : c = ' '
    · subst hc
      have : isspace ' ' = true := by decide
      simp [List.countP_cons, this]
      exact ih
    · rw [List.count_cons_of_ne (Ne.symm hc), List.countP_cons]
      omega

/-- The number of pieces: one per delimiter, plus one when the string ends in a piece. -/
theorem split_pieces_length (delim : Char) (cur s : CString) :
    (split_pieces delim cur s).length =
      s.count delim + (if ends_open delim (decide (cur ≠ [])) s then 1 else 0) := by
  induction s generalizing cur with
  | nil =>
    by_cases h : cur = [] <;> simp [split_pieces, ends_open, h]
  | cons c rest ih =>
    by_cases hc : c = delim
    · subst hc
      simp only [split_pieces, if_true, List.length_cons, ih, List.count_cons_self, ends_open]
      simp
      omega
    · have hb : (c != delim) = true := by simpa using hc
      simp only [split_pieces, if_neg hc, ih, List.count_cons_of_ne (Ne.symm hc), ends_open, hb]
      simp

/-- A string ends in a piece exactly when its last character is not the delimiter (or, for the
empty string, when the piece being read is non-empty). -/
theorem ends_open_iff (delim : Char) (b : Bool) (s : CString) :
    ends_open delim b s = true ↔
      (s = [] ∧ b = true) ∨ ∃ c, s.getLast? = some c ∧ c ≠ delim := by
  induction s generalizing b with
  | nil => simp [ends_open]
  | cons c rest ih =>
    simp only [ends_open, ih]
    cases rest with
    | nil => simp
    | cons d rest' => simp [List.getLast?_cons_cons]

/-- The whitespace count equals the space count exactly when every whitespace character is a
space. -/
theorem countP_isspace_eq_iff (s : CString) :
    s.countP isspace = s.count ' ' ↔ ∀ c ∈ s, isspace c = true → c = ' ' := by
  induction s with
  | nil => simp
  | cons c rest ih =>
    have hle := count_space_le rest
    by_cases hc : c = ' '
    · subst hc
      have hsp : isspace ' ' = true := by decide
      simp only [List.countP_cons, hsp, if_true, List.count_cons_self, List.mem_cons,
        forall_eq_or_imp, implies_true, true_and]
      rw [← ih]
      omega
    · rw [List.count_cons_of_ne (Ne.symm hc), List.countP_cons]
      simp only [List.mem_cons, forall_eq_or_imp]
      by_cases hs : isspace c = true
      · simp only [hs, if_true]
        constructor
        · intro h; omega
        · rintro ⟨h, -⟩; exact absurd (h trivial) hc
      · simp only [hs, Bool.false_eq_true, if_false, Nat.add_zero, false_implies, true_and]
        exact ih

/-- A piece free of `delim` followed by `delim` is cut off as it is. -/
theorem split_pieces_append (delim : Char) (cur t rest : CString) (ht : ∀ ch ∈ t, ch ≠ delim) :
    split_pieces delim cur (t ++ delim :: rest) = (cur ++ t) :: split_pieces delim [] rest := by
  induction t generalizing cur with
  | nil => simp [split_pieces]
  | cons a t ih =>
    have ha : a ≠ delim := ht a (by simp)
    have h := ih (cur ++ [a]) (fun ch hch => ht ch (by simp [hch]))
    simp only [List.cons_append, split_pieces, if_neg ha]
    exact h.trans (by simp)

/-- The pieces of the full command text: program name, `-c`, the mask, then the pieces of the
command string. -/
theorem split_full_cmdline (mask_str cmdline : CString) (hmask : ∀ ch ∈ mask_str, ch ≠ ' ') :
    split_pieces ' ' [] (full_cmdline_text mask_str cmdline) =
      "odpdpdk".toList :: "-c".toList :: mask_str :: split_at_spaces cmdline := by
  have e : full_cmdline_text mask_str cmdline =
      "odpdpdk".toList ++ ' ' :: ("-c".toList ++ ' ' :: (mask_str ++ ' ' :: cmdline)) := by
    simp [full_cmdline_text]
  rw [e, split_pieces_append ' ' [] _ _ (by decide), split_pieces_append ' ' [] _ _ (by decide),
    split_pieces_append ' ' [] _ _ hmask]
  rfl

/-- The argument vector in terms of the pieces of the command string. -/
theorem dpdk_argv_eq (mask_str cmdline : CString) (hmask : ∀ ch ∈ mask_str, ch ≠ ' ') :
    dpdk_argv mask_str cmdline =
      "odpdpdk".toList :: "-c".toList :: mask_str :: split_at_spaces cmdline := by
  unfold dpdk_argv
  rw [rte_strsplit_eq _ _ ' ' (by
    rw [dpdk_argc_loop_eq]
    have := count_space_le (full_cmdline_text mask_str cmdline)
    omega)]
  exact split_full_cmdline mask_str cmdline hmask

/-- Non-empty tokens free of spaces, joined by single spaces, are recovered by the split. -/
theorem split_at_spaces_intercalate (tokens : List CString)
    (h : ∀ t ∈ tokens, t ≠ [] ∧ ∀ ch ∈ t, ch ≠ ' ') :
    split_at_spaces (List.intercalate [' '] tokens) = tokens := by
  unfold split_at_spaces
  induction tokens with
  | nil => rfl
  | cons t ts ih =>
    obtain ⟨htne, ht⟩ := h t (by simp)
    cases ts with
    | nil =>
      have hcount : t.count ' ' = 0 := List.count_eq_zero.mpr (fun hmem => ht ' ' hmem rfl)
      simp only [List.intercalate, List.intersperse_single, List.flatten_cons, List.flatten_nil,
        List.append_nil]
      rw [split_pieces_no_delim ' ' [] t hcount (by simpa using htne)]
      simp
    | cons u us =>
      have hrest := ih (fun x hx => h x (by simp [hx]))
      simp only [List.intercalate, List.intersperse_cons₂, List.flatten_cons,
        List.singleton_append] at hrest ⊢
      rw [split_pieces_append ' ' [] t _ ht, hrest]
      simp

/-- When every whitespace character is a space, the whitespace tokens are the non-empty
pieces of the split at spaces. -/
theorem whitespace_pieces_eq (cur s : CString) (h : ∀ ch ∈ s, isspace ch = true → ch = ' ') :
    whitespace_pieces cur s = (split_pieces ' ' cur s).filter (fun p => decide (p ≠ [])) := by
  induction s generalizing cur with
  | nil =>
    by_cases hc : cur = [] <;> simp [whitespace_pieces, split_pieces, hc]
  | cons c rest ih =>
    have hrest : ∀ ch ∈ rest, isspace ch = true → ch = ' ' := fun ch hch => h ch (by simp [hch])
    by_cases hs : isspace c = true
    · have hc : c = ' ' := h c (by simp) hs
      subst hc
      by_cases hcur : cur = []
      · simp [whitespace_pieces, split_pieces, hs, hcur, ih [] hrest]
      · simp [whitespace_pieces, split_pieces, hs, hcur, ih [] hrest, List.filter_cons]
    · have hc : c ≠ ' ' := by
        rintro rfl
        exact hs (by decide)
      simp [whitespace_pieces, split_pieces, hs, hc, ih _ hrest]

/-! ## Theorems about the lifecycle controller -/

/-- Claim C1. In `odp_init_global`, when the init of stage `k` of the fixed global order fails
after every earlier init (and, for a stage after cpu-mask, the native bootstrap) succeeded,
the result is -1 and the subsystem calls made are the inits of the stages before `k`, the
init of `k`, then the terms of the stages before `k` in reverse order, and nothing else. -/
theorem init_global_failure_unwinds (W : World) (inst : odp_instance_t)
    (params : Option odp_init_t) (pp : Option odp_platform_init_t) (s : State) (k : Subsys)
    (hbefore : ∀ j ∈ stages_before global_order k, W.init_global j = 0)
    (hboot : k ≠ .cpumask → (odp_init_dpdk W (dpdk_cmdline_arg pp) s).1 = 0)
    (hk : W.init_global k ≠ 0) :
    (odp_init_global W inst params pp s).1 = -1 ∧
    subsys_calls (odp_init_global W inst params pp s).2.2.trace =
      subsys_calls s.trace ++ (stages_before global_order k ++ [k]).map Event.init_global ++
        (stages_before global_order k).reverse.map Event.term_global := by
  obtain ⟨h1, -, -, h4⟩ := init_global_fail_at W inst params pp s k hbefore hboot hk
  exact ⟨h1, h4⟩

theorem init_global_failure_unwinds_witness :
    (odp_init_global (W_init_fails .pool) 0 none (some pp_sample) s_fresh).1 = -1 ∧
    subsys_calls (odp_init_global (W_init_fails .pool) 0 none (some pp_sample) s_fresh).2.2.trace =
      [.init_global .cpumask, .init_global .time, .init_global .system_info,
       .init_global .shm, .init_global .thread, .init_global .pool,
       .term_global .thread, .term_global .shm, .term_global .system_info,
       .term_global .time, .term_global .cpumask] :=
  init_global_failure_unwinds (W_init_fails .pool) 0 none (some pp_sample) s_fresh .pool
    (by decide) (by decide) (by decide)

/-- Claim C3. When `odp_init_global` returns 0 and `odp_term_global` is then called with the
handle it wrote, in a world where every subsystem term succeeds, `odp_term_global` returns 0,
the init calls were those of the fourteen stages in the fixed order, the term calls are
those of the same stages in the exact reverse order, and each stage is torn down once. -/
theorem init_then_term_global (W W' : World) (inst : odp_instance_t)
    (params : Option odp_init_t) (pp : Option odp_platform_init_t) (s : State)
    (hinit : (odp_init_global W inst params pp s).1 = 0)
    (hterm : ∀ x, W'.term_global x = 0) :
    (odp_term_global W' (odp_init_global W inst params pp s).2.1
      (odp_init_global W inst params pp s).2.2).1 = 0 ∧
    subsys_calls (odp_init_global W inst params pp s).2.2.trace =
      subsys_calls s.trace ++ global_order.map Event.init_global ∧
    (odp_term_global W' (odp_init_global W inst params pp s).2.1
      (odp_init_global W inst params pp s).2.2).2.trace =
      (odp_init_global W inst params pp s).2.2.trace ++
        global_order.reverse.map Event.term_global ∧
    (∀ x : Subsys, (global_order.reverse.map Event.term_global).count (Event.term_global x) = 1) ∧
    global_order.length = 14 := by
  rcases init_global_outcomes W (dpdk_cmdline_arg pp) s with ⟨hall, hb⟩ | ⟨hc, hb⟩ | ⟨k, hpre, hb, hk⟩
  · obtain ⟨-, h2, h3, h4⟩ := init_global_all_ok W inst params pp s hall hb
    have hguard : ¬ (odp_init_global W inst params pp s).2.1 ≠
        to_instance (odp_init_global W inst params pp s).2.2.odp_global_data.main_pid := by
      rw [h2, h3]; simp
    have hnone : ¬ ∃ x ∈ teardown_order .ALL_INIT, W'.term_global x ≠ 0 := by
      rintro ⟨x, -, hx⟩; exact hx (hterm x)
    simp only [odp_term_global, if_neg hguard, term_global_eq, if_neg hnone]
    refine ⟨trivial, h4, rfl, ?_, rfl⟩
    intro x; cases x <;> decide
  · have := (init_global_boot_fail W inst params pp s hc hb).1
    rw [this] at hinit; exact absurd hinit (by decide)
  · have := (init_global_fail_at W inst params pp s k hpre hb hk).1
    rw [this] at hinit; exact absurd hinit (by decide)

theorem init_then_term_global_witness :
    (odp_term_global W_ok (odp_init_global W_ok 0 none (some pp_sample) s_fresh).2.1
      (odp_init_global W_ok 0 none (some pp_sample) s_fresh).2.2).1 = 0 ∧
    subsys_calls (odp_init_global W_ok 0 none (some pp_sample) s_fresh).2.2.trace =
      subsys_calls s_fresh.trace ++ global_order.map Event.init_global ∧
    (odp_term_global W_ok (odp_init_global W_ok 0 none (some pp_sample) s_fresh).2.1
      (odp_init_global W_ok 0 none (some pp_sample) s_fresh).2.2).2.trace =
      (odp_init_global W_ok 0 none (some pp_sample) s_fresh).2.2.trace ++
        global_order.reverse.map Event.term_global ∧
    (∀ x : Subsys, (global_order.reverse.map Event.term_global).count (Event.term_global x) = 1) ∧
    global_order.length = 14 :=
  init_then_term_global W_ok W_ok 0 none (some pp_sample) s_fresh (by decide) (fun _ => rfl)

/-- Claim C4. For every stage marker and every outcome of the subsystem term functions,
`_odp_term_global` calls the terms from the marker's stage down to cpu-mask (the same
sequence in every world), returns -1 exactly when one of the terms it called failed, and
returns 0 exactly when none did. -/
theorem term_global_exhaustive (W W' : World) (stage : init_stage) (s : State) :
    (_odp_term_global W stage s).2.trace =
      s.trace ++ (teardown_order stage).map Event.term_global ∧
    (_odp_term_global W' stage s).2.trace = (_odp_term_global W stage s).2.trace ∧
    ((_odp_term_global W stage s).1 = -1 ↔ ∃ x ∈ teardown_order stage, W.term_global x ≠ 0) ∧
    ((_odp_term_global W stage s).1 = 0 ↔ ∀ x ∈ teardown_order stage, W.term_global x = 0) := by
  simp only [term_global_eq]
  refine ⟨trivial, trivial, ?_, ?_⟩
  · by_cases h : ∃ x ∈ teardown_order stage, W.term_global x ≠ 0
    · simp [h]
    · simp [h]
  · by_cases h : ∃ x ∈ teardown_order stage, W.term_global x ≠ 0
    · simp only [if_pos h]
      obtain ⟨x, hx, hf⟩ := h
      constructor
      · intro h0; exact absurd h0 (by decide)
      · intro hall; exact absurd (hall x hx) hf
    · simp only [if_neg h, true_iff]
      intro x hx
      by_contra hf
      exact h ⟨x, hx, hf⟩

/-- Claim C5. A handle that differs from the process identity held in the lifecycle record
makes `odp_term_global` and `odp_init_local` return -1 with the state, hence the record and
the trace of calls, exactly as it was. -/
theorem bad_instance_rejected (W : World) (inst : odp_instance_t)
    (thr_type : odp_thread_type_t) (s : State)
    (h : inst ≠ to_instance s.odp_global_data.main_pid) :
    odp_term_global W inst s = (-1, s) ∧ odp_init_local W inst thr_type s = (-1, s) := by
  constructor
  · simp [odp_term_global, h]
  · simp only [odp_init_local, if_pos h]
    rfl

theorem bad_instance_rejected_witness :
    odp_term_global W_ok 7 s_fresh = (-1, s_fresh) ∧
    odp_init_local W_ok 7 .ODP_THREAD_WORKER s_fresh = (-1, s_fresh) :=
  bad_instance_rejected W_ok 7 .ODP_THREAD_WORKER s_fresh (by decide)

/-- Claim C6. When `odp_init_global` returns 0, the handle it wrote is the cast of the process
identity held in the lifecycle record, which is the pid of the creating process; a following
`odp_term_global` with that handle passes the identity check and runs the full teardown, and
a following `odp_init_local` with that handle goes on to its first local init call. -/
theorem init_global_handle_roundtrip (W W' : World) (inst : odp_instance_t)
    (params : Option odp_init_t) (pp : Option odp_platform_init_t)
    (thr_type : odp_thread_type_t) (s : State)
    (h : (odp_init_global W inst params pp s).1 = 0) :
    (odp_init_global W inst params pp s).2.1 =
      to_instance (odp_init_global W inst params pp s).2.2.odp_global_data.main_pid ∧
    (odp_init_global W inst params pp s).2.2.odp_global_data.main_pid = W.getpid ∧
    odp_term_global W' (odp_init_global W inst params pp s).2.1
        (odp_init_global W inst params pp s).2.2 =
      _odp_term_global W' .ALL_INIT (odp_init_global W inst params pp s).2.2 ∧
    ∃ rest, (odp_init_local W' (odp_init_global W inst params pp s).2.1 thr_type
        (odp_init_global W inst params pp s).2.2).2.trace =
      (odp_init_global W inst params pp s).2.2.trace ++ Event.init_local .shm none :: rest := by
  obtain ⟨hall, hb⟩ := (init_global_ret_zero_iff W inst params pp s).mp h
  obtain ⟨-, h2, h3, -⟩ := init_global_all_ok W inst params pp s hall hb
  have hguard : ¬ (odp_init_global W inst params pp s).2.1 ≠
      to_instance (odp_init_global W inst params pp s).2.2.odp_global_data.main_pid := by
    rw [h2, h3]; simp
  refine ⟨not_not.mp hguard, h3, by simp only [odp_term_global, if_neg hguard], ?_⟩
  simp only [odp_init_local, if_neg hguard]
  split_ifs <;>
    simp only [init_fail, term_local_state, State.emit, List.append_assoc,
      List.singleton_append, List.cons_append, List.nil_append] <;>
    exact ⟨_, rfl⟩

theorem init_global_handle_roundtrip_witness :
    (odp_init_global W_ok 0 none (some pp_sample) s_fresh).2.1 =
      to_instance (odp_init_global W_ok 0 none (some pp_sample) s_fresh).2.2.odp_global_data.main_pid ∧
    (odp_init_global W_ok 0 none (some pp_sample) s_fresh).2.2.odp_global_data.main_pid = 4242 ∧
    odp_term_global W_ok (odp_init_global W_ok 0 none (some pp_sample) s_fresh).2.1
        (odp_init_global W_ok 0 none (some pp_sample) s_fresh).2.2 =
      _odp_term_global W_ok .ALL_INIT (odp_init_global W_ok 0 none (some pp_sample) s_fresh).2.2 ∧
    ∃ rest, (odp_init_local W_ok (odp_init_global W_ok 0 none (some pp_sample) s_fresh).2.1
        .ODP_THREAD_WORKER (odp_init_global W_ok 0 none (some pp_sample) s_fresh).2.2).2.trace =
      (odp_init_global W_ok 0 none (some pp_sample) s_fresh).2.2.trace ++
        Event.init_local .shm none :: rest :=
  init_global_handle_roundtrip W_ok W_ok 0 none (some pp_sample) .ODP_THREAD_WORKER s_fresh
    (by decide)

/-- Claim C7. `odp_init_global` returns 0 exactly when the cpu-mask init, the native bootstrap
and the thirteen later subsystem inits all succeed; otherwise it returns -1, and whenever it
returns -1 the caller's instance variable holds the value it had at entry. -/
theorem init_global_result (W : World) (inst : odp_instance_t) (params : Option odp_init_t)
    (pp : Option odp_platform_init_t) (s : State) :
    ((odp_init_global W inst params pp s).1 = 0 ↔
      (W.init_global .cpumask = 0 ∧ (odp_init_dpdk W (dpdk_cmdline_arg pp) s).1 = 0 ∧
        ∀ x, x ≠ Subsys.cpumask → W.init_global x = 0)) ∧
    ((odp_init_global W inst params pp s).1 = 0 ∨ (odp_init_global W inst params pp s).1 = -1) ∧
    ((odp_init_global W inst params pp s).1 = -1 →
      (odp_init_global W inst params pp s).2.1 = inst) := by
  refine ⟨?_, ?_, ?_⟩
  · rw [init_global_ret_zero_iff]
    constructor
    · rintro ⟨hall, hb⟩
      exact ⟨hall _, hb, fun x _ => hall x⟩
    · rintro ⟨hc, hb, hrest⟩
      refine ⟨fun x => ?_, hb⟩
      by_cases hx : x = .cpumask
      · rw [hx]; exact hc
      · exact hrest x hx
  · by_cases h0 : (odp_init_global W inst params pp s).1 = 0
    · exact Or.inl h0
    · exact Or.inr (init_global_ret_neg_one W inst params pp s h0).1
  · intro h
    have h0 : (odp_init_global W inst params pp s).1 ≠ 0 := by rw [h]; decide
    exact (init_global_ret_neg_one W inst params pp s h0).2

/-- Claim C10. When the cpu-mask init succeeds and the native bootstrap fails (as it does when
no platform parameters are given and `ODP_PLATFORM_PARAMS` is unset), `odp_init_global`
returns -1 and its only subsystem call is the cpu-mask init: no term call is made, not even
for cpu-mask, and no later init is called. -/
theorem bootstrap_failure_no_rollback (W : World) (inst : odp_instance_t)
    (params : Option odp_init_t) (pp : Option odp_platform_init_t) (s : State)
    (hc : W.init_global .cpumask = 0)
    (hb : (odp_init_dpdk W (dpdk_cmdline_arg pp) s).1 ≠ 0 ∨
      (pp = none ∧ W.getenv ODP_PLATFORM_PARAMS = none)) :
    (odp_init_global W inst params pp s).1 = -1 ∧
    subsys_calls (odp_init_global W inst params pp s).2.2.trace =
      subsys_calls s.trace ++ [Event.init_global .cpumask] := by
  have hb' : (odp_init_dpdk W (dpdk_cmdline_arg pp) s).1 ≠ 0 := by
    rcases hb with hb | ⟨hpp, henv⟩
    · exact hb
    · subst hpp
      simp [dpdk_cmdline_arg, odp_init_dpdk, henv]
  obtain ⟨h1, -, -, h4⟩ := init_global_boot_fail W inst params pp s hc hb'
  exact ⟨h1, h4⟩

theorem bootstrap_failure_no_rollback_witness :
    (odp_init_global W_ok 0 none none s_fresh).1 = -1 ∧
    subsys_calls (odp_init_global W_ok 0 none none s_fresh).2.2.trace =
      subsys_calls s_fresh.trace ++ [Event.init_global .cpumask] :=
  bootstrap_failure_no_rollback W_ok 0 none none s_fresh rfl (Or.inr ⟨rfl, rfl⟩)

/-- Claim C2, as stated, fails. With a matching handle and only the scheduler's local init
failing, the local teardown calls are pool, thread, shm: the completed packet-io stage gets
no term call.  With only the pool's local init failing, no term call is made at all. -/
theorem init_local_unwind_gap :
    (4242 = to_instance s_live.odp_global_data.main_pid) ∧
    (∀ j ∈ stages_before local_order .sched,
      local_init_result (W_local_init_fails .sched) .ODP_THREAD_WORKER j = 0) ∧
    local_init_result (W_local_init_fails Subsys.sched) odp_thread_type_t.ODP_THREAD_WORKER Subsys.sched ≠ 0 ∧
    (odp_init_local (W_local_init_fails .sched) 4242 .ODP_THREAD_WORKER s_live).2.trace =
      [.init_local .shm none, .init_local .thread (some .ODP_THREAD_WORKER),
       .init_local .pktio none, .init_local .pool none, .init_local .sched none,
       .term_local .pool, .term_local .thread, .term_local .shm] ∧
    (odp_init_local (W_local_init_fails Subsys.sched) 4242 odp_thread_type_t.ODP_THREAD_WORKER s_live).2.trace ≠
      s_live.trace ++
        (stages_before local_order Subsys.sched ++ [Subsys.sched]).map (local_init_event .ODP_THREAD_WORKER) ++
        (stages_before local_order .sched).reverse.map Event.term_local ∧
    (∀ j ∈ stages_before local_order .pool,
      local_init_result (W_local_init_fails .pool) .ODP_THREAD_WORKER j = 0) ∧
    local_init_result (W_local_init_fails Subsys.pool) odp_thread_type_t.ODP_THREAD_WORKER Subsys.pool ≠ 0 ∧
    (odp_init_local (W_local_init_fails .pool) 4242 .ODP_THREAD_WORKER s_live).2.trace =
      [.init_local .shm none, .init_local .thread (some .ODP_THREAD_WORKER),
       .init_local .pktio none, .init_local .pool none] ∧
    (odp_init_local (W_local_init_fails Subsys.pool) 4242 odp_thread_type_t.ODP_THREAD_WORKER s_live).2.trace ≠
      s_live.trace ++
        (stages_before local_order Subsys.pool ++ [Subsys.pool]).map (local_init_event .ODP_THREAD_WORKER) ++
        (stages_before local_order .pool).reverse.map Event.term_local := by
  decide

/-- Claim C2, amended. In `odp_init_local` with a matching handle, when local step `k` fails
after every earlier local init succeeded, the result is -1 and the calls made are the local
inits of the steps before `k`, the init of `k`, then local term calls only; for every `k`
other than pool these term calls are those of the completed stages that have a local term
(packet-io has none), in reverse order. -/
theorem init_local_failure_unwinds (W : World) (inst : odp_instance_t)
    (thr_type : odp_thread_type_t) (s : State) (k : Subsys)
    (hinst : inst = to_instance s.odp_global_data.main_pid)
    (hmem : k ∈ local_order)
    (hbefore : ∀ j ∈ stages_before local_order k, local_init_result W thr_type j = 0)
    (hk : local_init_result W thr_type k ≠ 0) :
    (odp_init_local W inst thr_type s).1 = -1 ∧
    ∃ terms : List Subsys,
      (odp_init_local W inst thr_type s).2.trace =
        s.trace ++ (stages_before local_order k ++ [k]).map (local_init_event thr_type) ++
          terms.map Event.term_local ∧
      (k ≠ .pool →
        terms = ((stages_before local_order k).filter (fun x => x != .pktio)).reverse) := by
  simp only [local_order, List.mem_cons, List.mem_singleton, List.not_mem_nil, or_false] at hmem
  rcases hmem with rfl | rfl | rfl | rfl | rfl
  · have hk' : W.init_local .shm ≠ 0 := by simpa [local_init_result] using hk
    refine ⟨by simp [odp_init_local, hinst, hk', init_fail], [], ?_, fun _ => by decide⟩
    simp [odp_init_local, hinst, hk', init_fail, term_local_state, local_teardown_order,
      State.emit, stages_before, local_order, local_init_event]
  · have h1 : W.init_local .shm = 0 := by
      simpa [local_init_result] using hbefore .shm (by decide)
    have hk' : W.odp_thread_init_local thr_type ≠ 0 := by simpa [local_init_result] using hk
    refine ⟨by simp [odp_init_local, hinst, h1, hk', init_fail], [.shm], ?_, fun _ => by decide⟩
    simp [odp_init_local, hinst, h1, hk', init_fail, term_local_state, local_teardown_order,
      State.emit, local_init_event]
    rfl
  · have h1 : W.init_local .shm = 0 := by
      simpa [local_init_result] using hbefore .shm (by decide)
    have h2 : W.odp_thread_init_local thr_type = 0 := by
      simpa [local_init_result] using hbefore .thread (by decide)
    have hk' : W.init_local .pktio ≠ 0 := by simpa [local_init_result] using hk
    refine ⟨by simp [odp_init_local, hinst, h1, h2, hk', init_fail], [.thread, .shm], ?_,
      fun _ => by decide⟩
    simp [odp_init_local, hinst, h1, h2, hk', init_fail, term_local_state, local_teardown_order,
      State.emit, local_init_event]
    rfl
  · have h1 : W.init_local .shm = 0 := by
      simpa [local_init_result] using hbefore .shm (by decide)
    have h2 : W.odp_thread_init_local thr_type = 0 := by
      simpa [local_init_result] using hbefore .thread (by decide)
    have h3 : W.init_local .pktio = 0 := by
      simpa [local_init_result] using hbefore .pktio (by decide)
    have hk' : W.init_local .pool ≠ 0 := by simpa [local_init_result] using hk
    refine ⟨by simp [odp_init_local, hinst, h1, h2, h3, hk', init_fail], [], ?_,
      fun h => absurd rfl h⟩
    simp [odp_init_local, hinst, h1, h2, h3, hk', init_fail, term_local_state,
      local_teardown_order, State.emit, local_init_event]
    rfl
  · have h1 : W.init_local .shm = 0 := by
      simpa [local_init_result] using hbefore .shm (by decide)
    have h2 : W.odp_thread_init_local thr_type = 0 := by
      simpa [local_init_result] using hbefore .thread (by decide)
    have h3 : W.init_local .pktio = 0 := by
      simpa [local_init_result] using hbefore .pktio (by decide)
    have h4 : W.init_local .pool = 0 := by
      simpa [local_init_result] using hbefore .pool (by decide)
    have hk' : W.init_local .sched ≠ 0 := by simpa [local_init_result] using hk
    refine ⟨by simp [odp_init_local, hinst, h1, h2, h3, h4, hk', init_fail],
      [.pool, .thread, .shm], ?_, fun _ => by decide⟩
    simp [odp_init_local, hinst, h1, h2, h3, h4, hk', init_fail, term_local_state,
      local_teardown_order, State.emit, local_init_event]
    rfl

theorem init_local_failure_unwinds_witness :
    (odp_init_local (W_local_init_fails .sched) 4242 .ODP_THREAD_WORKER s_live).1 = -1 ∧
    ∃ terms : List Subsys,
      (odp_init_local (W_local_init_fails .sched) 4242 .ODP_THREAD_WORKER s_live).2.trace =
        s_live.trace ++
          (stages_before local_order Subsys.sched ++ [Subsys.sched]).map
            (local_init_event .ODP_THREAD_WORKER) ++
          terms.map Event.term_local ∧
      (Subsys.sched ≠ .pool →
        terms = ((stages_before local_order .sched).filter (fun x => x != .pktio)).reverse) :=
  init_local_failure_unwinds (W_local_init_fails .sched) 4242 .ODP_THREAD_WORKER s_live .sched
    (by decide) (by decide) (by decide) (by decide)

/-- Claim C9, as stated, fails. In `/tmp` listing `odp-7-a`, `odp-7-b`, `odp-8-c`, when the
allocation of the path buffer for the first entry fails, `cleanup_files("/tmp", 7)` returns
-1 and deletes nothing, though two entries begin with `odp-7-`. -/
theorem cleanup_files_alloc_failure :
    (W_tmp_listing (fun _ => true)).opendir _ODP_TMPDIR =
      some ["odp-7-a".toList, "odp-7-b".toList, "odp-8-c".toList] ∧
    _ODP_FILES_FMT 7 <+: "odp-7-a".toList ∧
    _ODP_FILES_FMT 7 <+: "odp-7-b".toList ∧
    cleanup_files (W_tmp_listing (fun _ => true)) _ODP_TMPDIR 7 s_fresh =
      (-1, { s_fresh with trace := [.opendir _ODP_TMPDIR] }) := by
  decide

/-- Claim C9, amended. For every listing and every outcome of the deletions, with `odp_pid` a
C `int`: when the directory cannot be opened `cleanup_files` returns 0 and deletes nothing;
when it can be opened and no path-buffer allocation fails, it returns 0 and unlinks, in
listing order, exactly the entries whose name begins with `odp-<odp_pid>-` (each as
`<dirpath>/<name>` formatted into `PATH_MAX` bytes); when the allocation fails for an entry
that begins with `odp-<odp_pid>-` it returns -1; in a listing `odp-<pid>-a`, `odp-<pid>-b`,
`odp-<other>-c` with `other` different from `pid` the matching entries are the first two. -/
theorem cleanup_files_reclaims (W : World) (dirpath : CString) (odp_pid : Int) (s : State)
    (hpid : -2 ^ 31 ≤ odp_pid ∧ odp_pid < 2 ^ 31) :
    (W.opendir dirpath = none →
      cleanup_files W dirpath odp_pid s = (0, { s with trace := s.trace ++ [.opendir dirpath] })) ∧
    (∀ entries, W.opendir dirpath = some entries → (∀ i, W.malloc_fails dirpath i = false) →
      cleanup_files W dirpath odp_pid s =
        (0, { s with trace := s.trace ++ Event.opendir dirpath ::
                matching_unlinks W dirpath (_ODP_FILES_FMT odp_pid) entries 0 })) ∧
    (∀ entries, W.opendir dirpath = some entries →
      (∃ j e, entries.get? j = some e ∧ _ODP_FILES_FMT odp_pid <+: e ∧
        W.malloc_fails dirpath j = true) →
      (cleanup_files W dirpath odp_pid s).1 = -1) ∧
    (∀ other : Int, other ≠ odp_pid →
      matching_unlinks W dirpath (_ODP_FILES_FMT odp_pid)
        [_ODP_FILES_FMT odp_pid ++ ['a'], _ODP_FILES_FMT odp_pid ++ ['b'],
         _ODP_FILES_FMT other ++ ['c']] 0 =
      [.unlink (snprintf PATH_MAX (dirpath ++ '/' :: (_ODP_FILES_FMT odp_pid ++ ['a'])))
          (W.unlink dirpath 0),
       .unlink (snprintf PATH_MAX (dirpath ++ '/' :: (_ODP_FILES_FMT odp_pid ++ ['b'])))
          (W.unlink dirpath 1)]) := by
  refine ⟨?_, ?_, ?_, ?_⟩
  · intro h
    simp [cleanup_files, h, State.emit]
  · intro entries h hmalloc
    simp only [cleanup_files, h, snprintf_of_fits PATH_MAX _ (files_fmt_length odp_pid hpid),
      cleanup_files_loop_ok W dirpath _ (files_fmt_no_nul odp_pid) hmalloc, State.emit,
      List.append_assoc, List.singleton_append]
  · rintro entries h ⟨j, e, hj, hp, hm⟩
    simp only [cleanup_files, h, snprintf_of_fits PATH_MAX _ (files_fmt_length odp_pid hpid)]
    exact cleanup_files_loop_alloc_fail W dirpath _ (files_fmt_no_nul odp_pid) entries 0 _
      ⟨j, e, hj, hp, by rw [Nat.zero_add]; exact hm⟩
  · intro other hne
    have ha : (_ODP_FILES_FMT odp_pid).isPrefixOf (_ODP_FILES_FMT odp_pid ++ ['a']) = true :=
      List.isPrefixOf_iff_prefix.mpr (List.prefix_append _ _)
    have hb : (_ODP_FILES_FMT odp_pid).isPrefixOf (_ODP_FILES_FMT odp_pid ++ ['b']) = true :=
      List.isPrefixOf_iff_prefix.mpr (List.prefix_append _ _)
    have hc : (_ODP_FILES_FMT odp_pid).isPrefixOf (_ODP_FILES_FMT other ++ ['c']) = false := by
      rw [Bool.eq_false_iff]
      intro h
      exact hne (files_fmt_prefix_inj odp_pid other _ (List.isPrefixOf_iff_prefix.mp h)).symm
    simp [matching_unlinks, List.enumFrom_cons, List.filter_cons, ha, hb, hc]

theorem cleanup_files_reclaims_witness :
    cleanup_files (W_tmp_listing (fun _ => false)) _ODP_TMPDIR 7 s_fresh =
      (0, { s_fresh with trace :=
              [.opendir _ODP_TMPDIR, .unlink "/tmp/odp-7-a".toList 0,
               .unlink "/tmp/odp-7-b".toList (-1)] }) :=
  (cleanup_files_reclaims (W_tmp_listing (fun _ => false)) _ODP_TMPDIR 7 s_fresh
    (by decide)).2.1 _ rfl (fun _ => rfl)

/-- Claim C8 fails on the code. With an explicit command string, a readable affinity (CPU 0)
and a rendered mask, when `rte_eal_init` returns -1 after moving the thread to CPU 1,
`odp_init_dpdk` returns -1 right after the call: `pthread_setaffinity_np` is never called and
the thread stays on CPU 1.  When `rte_eal_init` returns 0 in the same situation the snapshot
is restored. -/
theorem eal_failure_skips_affinity_restore :
    s_fresh.affinity = 1 ∧
    odp_init_dpdk (W_eal (-1)) (some "-n 4".toList) s_fresh =
      (-1, { s_fresh with
              affinity := 2
              trace := [.pthread_getaffinity_np, .odp_cpumask_to_str 1,
                .rte_eal_init ["odpdpdk".toList, "-c".toList, "0x1".toList, "-n".toList,
                  "4".toList]] }) ∧
    odp_init_dpdk (W_eal 0) (some "-n 4".toList) s_fresh =
      (0, { s_fresh with
              affinity := 1
              trace := [.pthread_getaffinity_np, .odp_cpumask_to_str 1,
                .rte_eal_init ["odpdpdk".toList, "-c".toList, "0x1".toList, "-n".toList,
                  "4".toList],
                .pthread_setaffinity_np 1] }) := by
  decide

/-! ## Theorems about the bootstrap, the argument vector and teardown -/

/-- Claim C11. `odp_init_dpdk` resolves its command string in this order: an explicit
`cmdline` is used as it is, without any `getenv` call and whatever the environment holds;
with a NULL `cmdline` the value of `ODP_PLATFORM_PARAMS` is read and used; when that is
unset too the function returns -1 after the `--help` call of `print_dpdk_env_help`, without
reading the thread affinity and without building an argument vector from a command string. -/
theorem dpdk_cmdline_resolution (W : World) (s : State) :
    (∀ (c : CString) (g : CString → Option CString),
      odp_init_dpdk { W with getenv := g } (some c) s = odp_init_dpdk_resolved W c s ∧
      ∃ evs, (odp_init_dpdk W (some c) s).2.trace = s.trace ++ evs ∧
        ∀ name, Event.getenv name ∉ evs) ∧
    (∀ c : CString, W.getenv ODP_PLATFORM_PARAMS = some c →
      odp_init_dpdk W none s =
        odp_init_dpdk_resolved W c (s.emit (.getenv ODP_PLATFORM_PARAMS))) ∧
    (W.getenv ODP_PLATFORM_PARAMS = none →
      (odp_init_dpdk W none s).1 = -1 ∧
      (odp_init_dpdk W none s).2.trace =
        s.trace ++ [.getenv ODP_PLATFORM_PARAMS, .rte_eal_init help_argv]) := by
  refine ⟨fun c g => ⟨rfl, ?_⟩, ?_, ?_⟩
  · show ∃ evs, (odp_init_dpdk_resolved W c s).2.trace = s.trace ++ evs ∧ _
    rw [odp_init_dpdk_resolved_eq]
    split_ifs <;> exact ⟨_, rfl, by simp⟩
  · intro c h
    simp only [odp_init_dpdk, h]
  · intro h
    simp [odp_init_dpdk, h, print_dpdk_env_help, State.emit, help_argv]

/-- Claim C12. For every affinity snapshot holding at least one CPU below `CPU_SETSIZE`, the
mask `odp_init_dpdk` hands to the renderer holds exactly one CPU, the lowest-numbered CPU of
the snapshot; and when the renderer returns a negative length the function returns -1 after
the rendering call, with no `rte_eal_init` call. -/
theorem dpdk_mask_lowest_cpu (W : World) (c : CString) (s : State)
    (hcpu : ∃ i, i < CPU_SETSIZE ∧ CPU_ISSET i s.affinity = true)
    (haff : W.pthread_getaffinity_np = 0) :
    (∃ i0, CPU_ISSET i0 s.affinity = true ∧ (∀ j, j < i0 → CPU_ISSET j s.affinity = false) ∧
      (∀ j, CPU_ISSET j (rendered_mask s.affinity) = true ↔ j = i0)) ∧
    (∃ rest, (odp_init_dpdk_resolved W c s).2.trace =
      s.trace ++ Event.pthread_getaffinity_np ::
        Event.odp_cpumask_to_str (rendered_mask s.affinity) :: rest) ∧
    ((W.odp_cpumask_to_str (rendered_mask s.affinity)).1 < 0 →
      (odp_init_dpdk_resolved W c s).1 = -1 ∧
      (odp_init_dpdk_resolved W c s).2.trace =
        s.trace ++ [.pthread_getaffinity_np, .odp_cpumask_to_str (rendered_mask s.affinity)]) := by
  refine ⟨?_, ?_, ?_⟩
  · classical
    have hex : ∃ i, CPU_ISSET i s.affinity = true := by
      obtain ⟨i, -, hi⟩ := hcpu; exact ⟨i, hi⟩
    obtain ⟨i, hi, hset⟩ := hcpu
    have hmin : ∀ j, j < Nat.find hex → CPU_ISSET j s.affinity = false := by
      intro j hj
      have := Nat.find_min hex hj
      simpa using this
    have hle : Nat.find hex ≤ i := Nat.find_min' hex hset
    have hmask : rendered_mask s.affinity = 2 ^ Nat.find hex :=
      first_cpu_loop_eq s.affinity CPU_SETSIZE 0 (Nat.find hex) (Nat.zero_le _) (by omega)
        (Nat.find_spec hex) (fun j _ hj => hmin j hj)
    refine ⟨Nat.find hex, Nat.find_spec hex, hmin, fun j => ?_⟩
    rw [hmask, CPU_ISSET, Nat.testBit_two_pow]
    simp only [decide_eq_true_eq]
    exact eq_comm
  · rw [odp_init_dpdk_resolved_eq, if_neg (by simp [haff])]
    split_ifs <;> exact ⟨_, rfl⟩
  · intro hlen
    rw [odp_init_dpdk_resolved_eq, if_neg (by simp [haff]), if_pos hlen]
    exact ⟨rfl, rfl⟩

theorem dpdk_mask_lowest_cpu_witness :
    (∃ i0, CPU_ISSET i0 s_cpus_2_3.affinity = true ∧
      (∀ j, j < i0 → CPU_ISSET j s_cpus_2_3.affinity = false) ∧
      (∀ j, CPU_ISSET j (rendered_mask s_cpus_2_3.affinity) = true ↔ j = i0)) ∧
    (∃ rest, (odp_init_dpdk_resolved W_mask_fails "-n 4".toList s_cpus_2_3).2.trace =
      s_cpus_2_3.trace ++ Event.pthread_getaffinity_np ::
        Event.odp_cpumask_to_str (rendered_mask s_cpus_2_3.affinity) :: rest) ∧
    ((W_mask_fails.odp_cpumask_to_str (rendered_mask s_cpus_2_3.affinity)).1 < 0 →
      (odp_init_dpdk_resolved W_mask_fails "-n 4".toList s_cpus_2_3).1 = -1 ∧
      (odp_init_dpdk_resolved W_mask_fails "-n 4".toList s_cpus_2_3).2.trace =
        s_cpus_2_3.trace ++
          [.pthread_getaffinity_np, .odp_cpumask_to_str (rendered_mask s_cpus_2_3.affinity)]) :=
  dpdk_mask_lowest_cpu W_mask_fails "-n 4".toList s_cpus_2_3 ⟨2, by decide, by decide⟩ rfl

/-- Claim C14. Whatever the subsystem inits return, the global init calls `odp_init_global`
makes are a beginning of the fixed global order (no stage skipped, none called twice), and
every init called before the last one succeeded (none is called after a failure). -/
theorem init_global_calls_prefix (W : World) (inst : odp_instance_t)
    (params : Option odp_init_t) (pp : Option odp_platform_init_t) (s : State) :
    ∃ called : List Subsys,
      init_calls (odp_init_global W inst params pp s).2.2.trace = init_calls s.trace ++ called ∧
      called <+: global_order ∧
      ∀ x ∈ called.dropLast, W.init_global x = 0 := by
  rcases init_global_outcomes W (dpdk_cmdline_arg pp) s with
    ⟨hall, hb⟩ | ⟨hc, hb⟩ | ⟨k, hpre, hb, hk⟩
  · obtain ⟨-, -, -, h4⟩ := init_global_all_ok W inst params pp s hall hb
    refine ⟨global_order, ?_, List.prefix_refl _, fun x _ => hall x⟩
    rw [← init_calls_subsys_calls, h4, init_calls_append, init_calls_subsys_calls,
      init_calls_map_init]
  · obtain ⟨-, -, -, h4⟩ := init_global_boot_fail W inst params pp s hc hb
    refine ⟨[.cpumask], ?_, by decide, by simp⟩
    rw [← init_calls_subsys_calls, h4, init_calls_append, init_calls_subsys_calls]
    rfl
  · obtain ⟨-, -, -, h4⟩ := init_global_fail_at W inst params pp s k hpre hb hk
    refine ⟨stages_before global_order k ++ [k], ?_, ?_, ?_⟩
    · rw [← init_calls_subsys_calls, h4, init_calls_append, init_calls_append,
        init_calls_subsys_calls, init_calls_map_init, init_calls_map_term, List.append_nil]
    · cases k <;> decide
    · intro x hx
      rw [List.dropLast_concat] at hx
      exact hpre x hx

/-- Claim C15. Teardown from `ALL_INIT` is teardown from the highest stage: for every outcome
of the term functions `_odp_term_global(ALL_INIT)` makes the calls and gives the result of
`_odp_term_global(NAME_TABLE_INIT)`, and `_odp_term_local(ALL_INIT)` those of
`_odp_term_local(SCHED_INIT)`. -/
theorem all_init_is_highest_stage (W : World) (s : State) :
    _odp_term_global W .ALL_INIT s = _odp_term_global W .NAME_TABLE_INIT s ∧
    _odp_term_local W .ALL_INIT s = _odp_term_local W .SCHED_INIT s ∧
    odp_term_local W s = _odp_term_local W .SCHED_INIT s := by
  refine ⟨?_, ?_, ?_⟩
  · rw [term_global_unfold, term_global_unfold]
    rfl
  · simp [_odp_term_local, switch_fallthrough]
  · simp [odp_term_local, _odp_term_local, switch_fallthrough]

/-- Claim C17, as stated, fails. When `odp_thread_term_local` returns 1 (success, other
threads remain) and every other local term returns 0, no step has failed and yet
`_odp_term_local(ALL_INIT)` returns 1, not 0. -/
theorem term_local_positive_result :
    (∀ x ∈ local_teardown_order .ALL_INIT, ¬ local_term_failed (W_thread_term 1) x) ∧
    (_odp_term_local (W_thread_term 1) .ALL_INIT s_live).1 = 1 ∧
    (_odp_term_local (W_thread_term 1) .ALL_INIT s_live).1 ≠ 0 := by
  decide

/-- Claim C17, amended. For every marker and every outcome of the local terms,
`_odp_term_local` makes the same sequence of local term calls; it returns -1 exactly when
one of the terms it called failed (a negative result of the thread registry's term, a
non-zero result of another); when none failed it returns the result of the thread
registry's term if that term was called, and 0 otherwise. -/
theorem term_local_exhaustive (W W' : World) (stage : init_stage) (s : State) :
    (_odp_term_local W stage s).2.trace =
      s.trace ++ (local_teardown_order stage).map Event.term_local ∧
    (_odp_term_local W' stage s).2.trace = (_odp_term_local W stage s).2.trace ∧
    ((_odp_term_local W stage s).1 = -1 ↔
      ∃ x ∈ local_teardown_order stage, local_term_failed W x) ∧
    ((∀ x ∈ local_teardown_order stage, ¬ local_term_failed W x) →
      (_odp_term_local W stage s).1 =
        if Subsys.thread ∈ local_teardown_order stage then W.term_local .thread else 0) := by
  refine ⟨?_, ?_, ?_, ?_⟩
  · rw [term_local_state]
  · rw [term_local_state, term_local_state]
  · exact (term_local_ret W stage s).1
  · exact (term_local_ret W stage s).2

/-- Claim C16. Best-effort cleanup never changes a result.  The return code of `odp_init_dpdk`
is the same whatever `pthread_setaffinity_np` returns for the final restore; with a command
string `c` (explicit, or read from the environment) it is 0 exactly when the affinity was
read, the mask rendered and `rte_eal_init` returned a non-negative value on the argument
vector built from `c`, and with no command string at all it is -1.  The return code, the
handle and the subsystem calls of `odp_init_global` are the same whatever the file-system
calls of `cleanup_files` give, hence whatever `cleanup_files` returns. -/
theorem best_effort_cleanup_ignored (W : World) (restore : cpu_set_t → Int)
    (od : CString → Option (List CString)) (mf : CString → Nat → Bool)
    (ul : CString → Nat → Int) (cmdline : Option CString)
    (inst : odp_instance_t) (params : Option odp_init_t) (pp : Option odp_platform_init_t)
    (s : State) :
    (odp_init_dpdk { W with pthread_setaffinity_np := restore } cmdline s).1 =
      (odp_init_dpdk W cmdline s).1 ∧
    (∀ c : CString,
      (cmdline = some c ∨ (cmdline = none ∧ W.getenv ODP_PLATFORM_PARAMS = some c)) →
      ((odp_init_dpdk W cmdline s).1 = 0 ↔
        (W.pthread_getaffinity_np = 0 ∧
          0 ≤ (W.odp_cpumask_to_str (rendered_mask s.affinity)).1 ∧
          0 ≤ (W.rte_eal_init
            (dpdk_argv (W.odp_cpumask_to_str (rendered_mask s.affinity)).2 c) s.affinity).1))) ∧
    (cmdline = none → W.getenv ODP_PLATFORM_PARAMS = none →
      (odp_init_dpdk W cmdline s).1 = -1) ∧
    (odp_init_global (with_fs W od mf ul) inst params pp s).1 =
      (odp_init_global W inst params pp s).1 ∧
    (odp_init_global (with_fs W od mf ul) inst params pp s).2.1 =
      (odp_init_global W inst params pp s).2.1 ∧
    subsys_calls (odp_init_global (with_fs W od mf ul) inst params pp s).2.2.trace =
      subsys_calls (odp_init_global W inst params pp s).2.2.trace := by
  have key : ∀ (c : CString) (s0 : State), s0.affinity = s.affinity →
      ((odp_init_dpdk_resolved W c s0).1 = 0 ↔
        (W.pthread_getaffinity_np = 0 ∧
          0 ≤ (W.odp_cpumask_to_str (rendered_mask s.affinity)).1 ∧
          0 ≤ (W.rte_eal_init
            (dpdk_argv (W.odp_cpumask_to_str (rendered_mask s.affinity)).2 c) s.affinity).1)) := by
    intro c s0 h0
    rw [odp_init_dpdk_resolved_eq, h0]
    split_ifs <;> (simp; try omega)
  refine ⟨?_, ?_, ?_, ?_⟩
  · cases cmdline with
    | some c0 =>
      show (odp_init_dpdk_resolved _ c0 s).1 = (odp_init_dpdk_resolved W c0 s).1
      rw [odp_init_dpdk_resolved_eq, odp_init_dpdk_resolved_eq]
      split_ifs <;> rfl
    | none =>
      simp only [odp_init_dpdk]
      cases hg : W.getenv ODP_PLATFORM_PARAMS with
      | none => rfl
      | some c0 =>
        show (odp_init_dpdk_resolved _ c0 _).1 = (odp_init_dpdk_resolved W c0 _).1
        rw [odp_init_dpdk_resolved_eq, odp_init_dpdk_resolved_eq]
        split_ifs <;> rfl
  · rintro c (rfl | ⟨rfl, hg⟩)
    · exact key c s rfl
    · simp only [odp_init_dpdk, hg]
      exact key c _ rfl
  · rintro rfl hg
    simp [odp_init_dpdk, hg]
  · exact init_global_determined W (with_fs W od mf ul) inst params pp s (fun _ => rfl) rfl
      (by
        rw [odp_init_dpdk_ret, odp_init_dpdk_ret]
        rfl)

set_option maxRecDepth 100000 in
/-- Claim C18, as stated, fails. For the record with memory 512 and a command string of 300
characters, the string handed to the bootstrap is not `-m 512 <cmdline>` (307 characters)
but its first 255 characters. -/
theorem platform_cmdline_truncated :
    (platform_cmdline_text pp_long).length = 307 ∧
    dpdk_cmdline_arg (some pp_long) = some ((platform_cmdline_text pp_long).take 255) ∧
    dpdk_cmdline_arg (some pp_long) ≠ some (platform_cmdline_text pp_long) := by
  decide

/-- Claim C18, amended. With a platform-parameters record (`memory` an unsigned 32-bit
value) the command string handed to the bootstrap is the first 255 characters of
`-m <memory> <cmdline>`, hence that text itself when it is at most 255 characters long;
the run makes no `getenv` call and is the same whatever the environment holds.  Without a
record the bootstrap is called with a NULL command string. -/
theorem platform_cmdline_handed (W : World) (g : CString → Option CString)
    (inst : odp_instance_t) (params : Option odp_init_t) (pp : odp_platform_init_t) (s : State)
    (hmem : pp.memory < 2 ^ 32) :
    dpdk_cmdline_arg (some pp) = some ((platform_cmdline_text pp).take 255) ∧
    ((platform_cmdline_text pp).length ≤ 255 →
      dpdk_cmdline_arg (some pp) = some (platform_cmdline_text pp)) ∧
    env_reads (odp_init_global W inst params (some pp) s).2.2.trace = env_reads s.trace ∧
    odp_init_global { W with getenv := g } inst params (some pp) s =
      odp_init_global W inst params (some pp) s ∧
    dpdk_cmdline_arg none = none := by
  have h1 : dpdk_cmdline_arg (some pp) = some ((platform_cmdline_text pp).take 255) := by
    simp only [dpdk_cmdline_arg, platform_cmdline_text, snprintf, Nat.mod_eq_of_lt hmem]
    cases pp.cmdline <;> rfl
  refine ⟨h1, ?_, init_global_env W inst params pp s, init_global_getenv W g inst params pp s, rfl⟩
  intro hlen
  rw [h1, List.take_of_length_le hlen]

theorem platform_cmdline_handed_witness :
    dpdk_cmdline_arg (some pp_sample) = some "-m 512 -n 4".toList :=
  ((platform_cmdline_handed W_ok (fun _ => none) 0 none pp_sample s_fresh (by decide)).2.1
    (by decide))

/-- Claim C19. When the mask renderer returns the length of the rendered mask plus one, the
byte count passed to `calloc` for `full_cmdline` equals the number of bytes `sprintf` writes
for `odpdpdk -c <mask> <cmdline>` with its terminating NUL, so it is enough, with no spare
byte, for every mask and every command string. -/
theorem full_cmdline_alloc_exact (W : World) (mask : odp_cpumask_t) (cmdline : CString)
    (hlen : (W.odp_cpumask_to_str mask).1 = ((W.odp_cpumask_to_str mask).2.length : Int) + 1) :
    full_cmdline_alloc (W.odp_cpumask_to_str mask).1 cmdline =
      ((full_cmdline_text (W.odp_cpumask_to_str mask).2 cmdline).length : Int) + 1 ∧
    ((full_cmdline_text (W.odp_cpumask_to_str mask).2 cmdline).length : Int) + 1 ≤
      full_cmdline_alloc (W.odp_cpumask_to_str mask).1 cmdline := by
  have e1 : "odpdpdk -c ".toList.length = 11 := rfl
  have e2 : " ".toList.length = 1 := rfl
  have h : full_cmdline_alloc (W.odp_cpumask_to_str mask).1 cmdline =
      ((full_cmdline_text (W.odp_cpumask_to_str mask).2 cmdline).length : Int) + 1 := by
    simp only [full_cmdline_alloc, full_cmdline_text, List.length_append, e1, e2, hlen]
    push_cast
    omega
  exact ⟨h, by rw [h]⟩

theorem full_cmdline_alloc_exact_witness :
    full_cmdline_alloc (W_ok.odp_cpumask_to_str 1).1 "-n 4".toList =
      ((full_cmdline_text (W_ok.odp_cpumask_to_str 1).2 "-n 4".toList).length : Int) + 1 ∧
    ((full_cmdline_text (W_ok.odp_cpumask_to_str 1).2 "-n 4".toList).length : Int) + 1 ≤
      full_cmdline_alloc (W_ok.odp_cpumask_to_str 1).1 "-n 4".toList :=
  full_cmdline_alloc_exact W_ok 1 "-n 4".toList (by decide)

/-- Claim C20, as stated, fails in its last part. The full command string
`odpdpdk -c 0x1 ` (empty command string) holds no whitespace other than the space, yet the
capacity is 4 and the split on `' '` produces 3 tokens: the empty piece after the final space
is not a token. -/
theorem argv_capacity_trailing_space :
    full_cmdline_text "0x1".toList [] = "odpdpdk -c 0x1 ".toList ∧
    (∀ c ∈ full_cmdline_text "0x1".toList [], isspace c = true → c = ' ') ∧
    dpdk_argc_loop (full_cmdline_text "0x1".toList []) 1 = 4 ∧
    rte_strsplit (full_cmdline_text "0x1".toList []) (full_cmdline_text "0x1".toList []).length
      (dpdk_argc_loop (full_cmdline_text "0x1".toList []) 1) ' ' =
      ["odpdpdk".toList, "-c".toList, "0x1".toList] ∧
    (rte_strsplit (full_cmdline_text "0x1".toList [])
      (full_cmdline_text "0x1".toList []).length
      (dpdk_argc_loop (full_cmdline_text "0x1".toList []) 1) ' ').length ≠
      dpdk_argc_loop (full_cmdline_text "0x1".toList []) 1 := by
  decide

/-- Claim C20, amended. For every string, the capacity computed by `odp_init_dpdk` is one plus
the number of whitespace characters; it is at least the number of tokens the split on `' '`
produces, and more slots would give the same tokens (none is dropped for lack of slots); the
two numbers are equal exactly when the string holds no whitespace character other than `' '`
and ends with a character that is not `' '`. -/
theorem argv_capacity_suffices (s : CString) :
    dpdk_argc_loop s 1 = 1 + s.countP isspace ∧
    (∀ m, dpdk_argc_loop s 1 ≤ m →
      rte_strsplit s s.length m ' ' = rte_strsplit s s.length (dpdk_argc_loop s 1) ' ') ∧
    (rte_strsplit s s.length (dpdk_argc_loop s 1) ' ').length ≤ dpdk_argc_loop s 1 ∧
    ((rte_strsplit s s.length (dpdk_argc_loop s 1) ' ').length = dpdk_argc_loop s 1 ↔
      ((∀ c ∈ s, isspace c = true → c = ' ') ∧ ∃ c, s.getLast? = some c ∧ c ≠ ' ')) := by
  have hcap : dpdk_argc_loop s 1 = 1 + s.countP isspace := dpdk_argc_loop_eq s 1
  have hle := count_space_le s
  have hsplit : ∀ m, dpdk_argc_loop s 1 ≤ m →
      rte_strsplit s s.length m ' ' = split_pieces ' ' [] s :=
    fun m hm => rte_strsplit_eq s m ' ' (by omega)
  have hlen : (split_pieces ' ' [] s).length =
      s.count ' ' + (if ends_open ' ' false s = true then 1 else 0) := by
    simpa using split_pieces_length ' ' [] s
  have hopen := ends_open_iff ' ' false s
  refine ⟨hcap, fun m hm => ?_, ?_, ?_⟩
  · rw [hsplit m hm, hsplit _ (Nat.le_refl _)]
  · rw [hsplit _ (Nat.le_refl _), hlen, hcap]
    split_ifs <;> omega
  · rw [hsplit _ (Nat.le_refl _), hlen, hcap, ← countP_isspace_eq_iff]
    by_cases ho : ends_open ' ' false s = true
    · have hex : ∃ c, s.getLast? = some c ∧ c ≠ ' ' := by
        rcases hopen.mp ho with ⟨-, h⟩ | h
        · exact absurd h (by decide)
        · exact h
      simp only [ho, if_true]
      constructor
      · intro h; exact ⟨by omega, hex⟩
      · rintro ⟨h, -⟩; omega
    · have hnex : ¬ ∃ c, s.getLast? = some c ∧ c ≠ ' ' := fun h => ho (hopen.mpr (Or.inr h))
      simp only [ho, Bool.false_eq_true, if_false]
      constructor
      · intro h; omega
      · rintro ⟨-, h⟩; exact absurd h hnex

/-- Claim C13, as stated, fails. With the rendered mask `0x1`: for the command string `-n  4`
(two spaces) the argument vector holds an empty argument between `-n` and `4`, and for
`-n<TAB>4` it holds the single argument `-n<TAB>4`; the whitespace tokenization of the full
string is `odpdpdk`, `-c`, `0x1`, `-n`, `4` in both cases. -/
theorem argv_not_whitespace_tokens :
    (odp_init_dpdk W_ok (some "-n  4".toList) s_fresh).2.trace =
      [.pthread_getaffinity_np, .odp_cpumask_to_str 1,
       .rte_eal_init ["odpdpdk".toList, "-c".toList, "0x1".toList, "-n".toList, [], "4".toList],
       .pthread_setaffinity_np 1] ∧
    whitespace_tokens (full_cmdline_text "0x1".toList "-n  4".toList) =
      ["odpdpdk".toList, "-c".toList, "0x1".toList, "-n".toList, "4".toList] ∧
    (odp_init_dpdk W_ok (some ['-', 'n', Char.ofNat 9, '4']) s_fresh).2.trace =
      [.pthread_getaffinity_np, .odp_cpumask_to_str 1,
       .rte_eal_init ["odpdpdk".toList, "-c".toList, "0x1".toList, ['-', 'n', Char.ofNat 9, '4']],
       .pthread_setaffinity_np 1] ∧
    whitespace_tokens (full_cmdline_text "0x1".toList ['-', 'n', Char.ofNat 9, '4']) =
      ["odpdpdk".toList, "-c".toList, "0x1".toList, "-n".toList, "4".toList] := by
  decide

/-- Claim C13, amended. In a run of `odp_init_dpdk` that reaches `rte_eal_init`, with a rendered
mask free of spaces, the argument vector passed is `odpdpdk`, `-c`, the rendered mask, then
the pieces of the resolved command string cut at every space character, in order (adjacent
spaces give an empty argument, other whitespace does not separate, nothing follows a final
space).  For a command string made of non-empty space-free tokens joined by single spaces the
pieces are these tokens; and when the strings hold no whitespace other than spaces, the
non-empty arguments are the whitespace tokenization of `odpdpdk -c <mask> <cmdline>`. -/
theorem dpdk_argv_split (W : World) (c : CString) (s : State)
    (haff : W.pthread_getaffinity_np = 0)
    (hlen : 0 ≤ (W.odp_cpumask_to_str (rendered_mask s.affinity)).1)
    (hmask : ∀ ch ∈ (W.odp_cpumask_to_str (rendered_mask s.affinity)).2, ch ≠ ' ') :
    (∃ rest, (odp_init_dpdk_resolved W c s).2.trace =
      s.trace ++
        [.pthread_getaffinity_np, .odp_cpumask_to_str (rendered_mask s.affinity),
         .rte_eal_init ("odpdpdk".toList :: "-c".toList ::
            (W.odp_cpumask_to_str (rendered_mask s.affinity)).2 :: split_at_spaces c)] ++ rest ∧
      ∀ e ∈ rest, e = Event.pthread_setaffinity_np s.affinity) ∧
    (∀ tokens : List CString, (∀ t ∈ tokens, t ≠ [] ∧ ∀ ch ∈ t, ch ≠ ' ') →
      split_at_spaces (List.intercalate [' '] tokens) = tokens) ∧
    ((∀ ch ∈ (W.odp_cpumask_to_str (rendered_mask s.affinity)).2 ++ c,
        isspace ch = true → ch = ' ') →
      ("odpdpdk".toList :: "-c".toList ::
        (W.odp_cpumask_to_str (rendered_mask s.affinity)).2 :: split_at_spaces c).filter
          (fun p => decide (p ≠ [])) =
        whitespace_tokens
          (full_cmdline_text (W.odp_cpumask_to_str (rendered_mask s.affinity)).2 c)) := by
  refine ⟨?_, split_at_spaces_intercalate, ?_⟩
  · rw [odp_init_dpdk_resolved_eq, if_neg (by simp [haff]), if_neg (by omega),
      dpdk_argv_eq _ c hmask]
    split_ifs
    · exact ⟨[], by simp, by simp⟩
    · exact ⟨[.pthread_setaffinity_np s.affinity], by simp, by simp⟩
    · exact ⟨[.pthread_setaffinity_np s.affinity], by simp, by simp⟩
  · intro hws
    have hfull : ∀ ch ∈ full_cmdline_text (W.odp_cpumask_to_str (rendered_mask s.affinity)).2 c,
        isspace ch = true → ch = ' ' := by
      intro ch hch
      have hlit : ∀ x ∈ "odpdpdk -c ".toList ++ " ".toList, isspace x = true → x = ' ' := by
        decide
      simp only [full_cmdline_text, List.mem_append] at hch
      rcases hch with ((h | h) | h) | h
      · exact hlit ch (List.mem_append_left _ h)
      · exact hws ch (List.mem_append_left _ h)
      · exact hlit ch (List.mem_append_right _ h)
      · exact hws ch (List.mem_append_right _ h)
    unfold whitespace_tokens
    rw [whitespace_pieces_eq [] _ hfull, split_full_cmdline _ c hmask]

theorem dpdk_argv_split_witness :
    (∃ rest, (odp_init_dpdk_resolved W_ok "-n 4".toList s_fresh).2.trace =
      s_fresh.trace ++
        [.pthread_getaffinity_np, .odp_cpumask_to_str (rendered_mask s_fresh.affinity),
         .rte_eal_init ("odpdpdk".toList :: "-c".toList ::
            (W_ok.odp_cpumask_to_str (rendered_mask s_fresh.affinity)).2 ::
              split_at_spaces "-n 4".toList)] ++ rest ∧
      ∀ e ∈ rest, e = Event.pthread_setaffinity_np s_fresh.affinity) ∧
    (∀ tokens : List CString, (∀ t ∈ tokens, t ≠ [] ∧ ∀ ch ∈ t, ch ≠ ' ') →
      split_at_spaces (List.intercalate [' '] tokens) = tokens) ∧
    ((∀ ch ∈ (W_ok.odp_cpumask_to_str (rendered_mask s_fresh.affinity)).2 ++ "-n 4".toList,
        isspace ch = true → ch = ' ') →
      ("odpdpdk".toList :: "-c".toList ::
        (W_ok.odp_cpumask_to_str (rendered_mask s_fresh.affinity)).2 ::
          split_at_spaces "-n 4".toList).filter (fun p => decide (p ≠ [])) =
        whitespace_tokens
          (full_cmdline_text (W_ok.odp_cpumask_to_str (rendered_mask s_fresh.affinity)).2
            "-n 4".toList)) :=
  dpdk_argv_split W_ok "-n 4".toList s_fresh rfl (by decide) (by decide)

end OdpInit
